import Mathlib

/-!
# The JNI bridge `org_bitcoin_NativeSecp256k1.c`

A shallow embedding of the native entry points of
`app/src/main/cpp/secp256k1/org_bitcoin_NativeSecp256k1.c`.

* An `unsigned char` is a natural number; a store into an `unsigned char`
  is written `toUChar` (reduction modulo 256).
* Memory reached through a pointer is a function from offsets to bytes
  (`Mem`); `load` reads a run of bytes and `store` writes one.
* The secp256k1 library itself is not part of the source tree: the entry
  points are parameterised by a record `Secp256k1` holding one function
  per library routine the bridge calls.
* Every library call made by an entry point is recorded, in order, in a
  log (`Call`), so that "routine X is not called" is a statement about
  the log.
* `jint` lengths are the lengths of Java arrays and are modelled as
  natural numbers; `recid` is an `Int`.
* The three context entry points (`ctx_clone`, `context_randomize`,
  `destroy_context`) only hand the context to the library and are left out.
-/

namespace NativeSecp256k1

/-! ## Bytes and memory -/

/-- An `unsigned char`. -/
abbrev Byte := Nat

/-- Conversion to `unsigned char`. -/
def toUChar (n : Int) : Byte := (n % 256).toNat

/-- Memory seen through a pointer: byte `i` past the pointer. -/
abbrev Mem := Nat → Byte

/-- Pointer arithmetic `p + off`. -/
def Mem.add (p : Mem) (off : Nat) : Mem := fun i => p (off + i)

/-- The `len` bytes at `p[0]`, ..., `p[len-1]`. -/
def load (p : Mem) (len : Nat) : List Byte := (List.range len).map p

/-- Memory after writing `bs` at `p[0]`, `p[1]`, ... -/
def store (p : Mem) (bs : List Byte) : Mem := fun i => if i < bs.length then bs.getD i 0 else p i

/-- Memory holding the bytes `bs` (zero past their end). -/
def Mem.ofList (bs : List Byte) : Mem := fun i => bs.getD i 0

/-! ## The JNI array functions used by the bridge -/

/-- A Java `byte[]`. -/
abbrev jbyteArray := List Byte

/-- A Java `byte[][]`. -/
abbrev jobjectArray := List jbyteArray

/-- JNI `NewByteArray`: a zero-filled array of the given length. -/
def NewByteArray (len : Nat) : jbyteArray := List.replicate len 0

/-- JNI `NewObjectArray`: `len` elements, each the initial element. -/
def NewObjectArray (len : Nat) (init : jbyteArray) : jobjectArray := List.replicate len init

/-- JNI `SetByteArrayRegion`: copy `len` bytes from the native buffer `buf`
into `arr[start .. start+len)`; nothing is copied when the region does not
fit the array. -/
def SetByteArrayRegion (arr : jbyteArray) (start len : Nat) (buf : Mem) : jbyteArray :=
  if start + len ≤ arr.length then arr.take start ++ load buf len ++ arr.drop (start + len)
  else arr

/-- JNI `SetObjectArrayElement`. -/
def SetObjectArrayElement (arr : jobjectArray) (index : Nat) (val : jbyteArray) : jobjectArray :=
  arr.set index val

/-! ## The library interface -/

/-- The routines of the secp256k1 library called by the bridge, taken as a
parameter since the library is not in the source tree. A routine
returning `int` returns its success flag as a `Bool` (`true` for 1); an
output parameter is returned next to it. A serializer returns the flag,
the value left in `*outputlen`, and the bytes it wrote at `output[0..]`.
A routine working in place on a key returns the bytes it left in the key
buffer. The context is passed as the `jlong` handle; a pointer argument
that may be `NULL` is an `Option`. -/
structure Secp256k1 where
  /-- The C type `secp256k1_ecdsa_signature`. -/
  Sig : Type
  /-- The C type `secp256k1_pubkey`. -/
  PubKey : Type
  /-- The C type `secp256k1_ecdsa_recoverable_signature`. -/
  RecSig : Type
  /-- The C type `secp256k1_nonce_function`. -/
  NonceFn : Type
  /-- The C type `secp256k1_ecdh_hash_function`. -/
  HashFn : Type
  /-- The flag `SECP256K1_EC_COMPRESSED`. -/
  EC_COMPRESSED : Nat
  /-- The flag `SECP256K1_EC_UNCOMPRESSED`. -/
  EC_UNCOMPRESSED : Nat
  ecdsa_signature_parse_compact : (ctx : Int) → (input64 : List Byte) → Bool × Sig
  ecdsa_signature_parse_der : (ctx : Int) → (input : List Byte) → (inputlen : Nat) → Bool × Sig
  ecdsa_signature_serialize_der : (ctx : Int) → (outputlen : Nat) → Sig → Bool × Nat × List Byte
  ecdsa_signature_serialize_compact : (ctx : Int) → Sig → Bool × List Byte
  ecdsa_verify : (ctx : Int) → Sig → (msg32 : List Byte) → PubKey → Bool
  ecdsa_sign : (ctx : Int) → (msg32 : List Byte) → (seckey : List Byte) →
    (noncefp : Option NonceFn) → (ndata : Option (List Byte)) → Bool × Sig
  ec_seckey_verify : (ctx : Int) → (seckey : List Byte) → Bool
  ec_pubkey_create : (ctx : Int) → (seckey : List Byte) → Bool × PubKey
  ec_pubkey_parse : (ctx : Int) → (input : List Byte) → (inputlen : Nat) → Bool × PubKey
  ec_pubkey_serialize : (ctx : Int) → (outputlen : Nat) → PubKey → (flags : Nat) → Bool × Nat × List Byte
  ec_privkey_negate : (ctx : Int) → (seckey : List Byte) → Bool × List Byte
  ec_privkey_tweak_add : (ctx : Int) → (seckey : List Byte) → (tweak : List Byte) → Bool × List Byte
  ec_privkey_tweak_mul : (ctx : Int) → (seckey : List Byte) → (tweak : List Byte) → Bool × List Byte
  ec_pubkey_negate : (ctx : Int) → PubKey → Bool × PubKey
  ec_pubkey_tweak_add : (ctx : Int) → PubKey → (tweak : List Byte) → Bool × PubKey
  ec_pubkey_tweak_mul : (ctx : Int) → PubKey → (tweak : List Byte) → Bool × PubKey
  ec_pubkey_combine : (ctx : Int) → (ins : List PubKey) → Bool × PubKey
  ecdh : (ctx : Int) → PubKey → (privkey : List Byte) →
    (hashfp : Option HashFn) → (data : Option (List Byte)) → Bool × List Byte
  ecdsa_recoverable_signature_parse_compact : (ctx : Int) → (input64 : List Byte) → (recid : Int) → Bool × RecSig
  ecdsa_recover : (ctx : Int) → RecSig → (msg32 : List Byte) → Bool × PubKey

/-- The C value of a success flag. -/
def flag (b : Bool) : Int := if b then 1 else 0

/-- One library call, with the arguments it was given. -/
inductive Call (L : Secp256k1)
  | ecdsa_signature_parse_compact (ctx : Int) (input64 : List Byte)
  | ecdsa_signature_parse_der (ctx : Int) (input : List Byte) (inputlen : Nat)
  | ecdsa_signature_serialize_der (ctx : Int) (outputlen : Nat) (sig : L.Sig)
  | ecdsa_signature_serialize_compact (ctx : Int) (sig : L.Sig)
  | ecdsa_verify (ctx : Int) (sig : L.Sig) (msg32 : List Byte) (pubkey : L.PubKey)
  | ecdsa_sign (ctx : Int) (msg32 : List Byte) (seckey : List Byte)
      (noncefp : Option L.NonceFn) (ndata : Option (List Byte))
  | ec_seckey_verify (ctx : Int) (seckey : List Byte)
  | ec_pubkey_create (ctx : Int) (seckey : List Byte)
  | ec_pubkey_parse (ctx : Int) (input : List Byte) (inputlen : Nat)
  | ec_pubkey_serialize (ctx : Int) (outputlen : Nat) (pubkey : L.PubKey) (flags : Nat)
  | ec_privkey_negate (ctx : Int) (seckey : List Byte)
  | ec_privkey_tweak_add (ctx : Int) (seckey : List Byte) (tweak : List Byte)
  | ec_privkey_tweak_mul (ctx : Int) (seckey : List Byte) (tweak : List Byte)
  | ec_pubkey_negate (ctx : Int) (pubkey : L.PubKey)
  | ec_pubkey_tweak_add (ctx : Int) (pubkey : L.PubKey) (tweak : List Byte)
  | ec_pubkey_tweak_mul (ctx : Int) (pubkey : L.PubKey) (tweak : List Byte)
  | ec_pubkey_combine (ctx : Int) (ins : List L.PubKey)
  | ecdh (ctx : Int) (pubkey : L.PubKey) (privkey : List Byte)
      (hashfp : Option L.HashFn) (data : Option (List Byte))
  | ecdsa_recoverable_signature_parse_compact (ctx : Int) (input64 : List Byte) (recid : Int)
  | ecdsa_recover (ctx : Int) (sig : L.RecSig) (msg32 : List Byte)

/-- A native computation: a result together with the library calls made, in order. -/
abbrev Native (L : Secp256k1) := StateM (List (Call L))

/-- Append a call to the log. -/
def logCall {L : Secp256k1} (c : Call L) : Native L Unit := modify (fun t => t ++ [c])

/-- Run an entry point from an empty log. -/
def Native.exec {L : Secp256k1} {α : Type} (m : Native L α) : α × List (Call L) := m.run []

/-! ## Logged library calls

Each function logs the call and returns the C-level result: the `int`
return value, followed by what the routine left in its output parameters. -/

def secp256k1_ecdsa_signature_parse_compact (L : Secp256k1) (ctx : Int) (input64 : List Byte) :
    Native L (Int × L.Sig) := do
  logCall (Call.ecdsa_signature_parse_compact ctx input64)
  let r := L.ecdsa_signature_parse_compact ctx input64
  return (flag r.1, r.2)

def secp256k1_ecdsa_signature_parse_der (L : Secp256k1) (ctx : Int) (input : List Byte)
    (inputlen : Nat) : Native L (Int × L.Sig) := do
  logCall (Call.ecdsa_signature_parse_der ctx input inputlen)
  let r := L.ecdsa_signature_parse_der ctx input inputlen
  return (flag r.1, r.2)

def secp256k1_ecdsa_signature_serialize_der (L : Secp256k1) (ctx : Int) (outputlen : Nat)
    (sig : L.Sig) : Native L (Int × Nat × List Byte) := do
  logCall (Call.ecdsa_signature_serialize_der ctx outputlen sig)
  let r := L.ecdsa_signature_serialize_der ctx outputlen sig
  return (flag r.1, r.2.1, r.2.2)

def secp256k1_ecdsa_signature_serialize_compact (L : Secp256k1) (ctx : Int) (sig : L.Sig) :
    Native L (Int × List Byte) := do
  logCall (Call.ecdsa_signature_serialize_compact ctx sig)
  let r := L.ecdsa_signature_serialize_compact ctx sig
  return (flag r.1, r.2)

def secp256k1_ecdsa_verify (L : Secp256k1) (ctx : Int) (sig : L.Sig) (msg32 : List Byte)
    (pubkey : L.PubKey) : Native L Int := do
  logCall (Call.ecdsa_verify ctx sig msg32 pubkey)
  return flag (L.ecdsa_verify ctx sig msg32 pubkey)

def secp256k1_ecdsa_sign (L : Secp256k1) (ctx : Int) (msg32 seckey : List Byte)
    (noncefp : Option L.NonceFn) (ndata : Option (List Byte)) : Native L (Int × L.Sig) := do
  logCall (Call.ecdsa_sign ctx msg32 seckey noncefp ndata)
  let r := L.ecdsa_sign ctx msg32 seckey noncefp ndata
  return (flag r.1, r.2)

def secp256k1_ec_seckey_verify (L : Secp256k1) (ctx : Int) (seckey : List Byte) :
    Native L Int := do
  logCall (Call.ec_seckey_verify ctx seckey)
  return flag (L.ec_seckey_verify ctx seckey)

def secp256k1_ec_pubkey_create (L : Secp256k1) (ctx : Int) (seckey : List Byte) :
    Native L (Int × L.PubKey) := do
  logCall (Call.ec_pubkey_create ctx seckey)
  let r := L.ec_pubkey_create ctx seckey
  return (flag r.1, r.2)

def secp256k1_ec_pubkey_parse (L : Secp256k1) (ctx : Int) (input : List Byte) (inputlen : Nat) :
    Native L (Int × L.PubKey) := do
  logCall (Call.ec_pubkey_parse ctx input inputlen)
  let r := L.ec_pubkey_parse ctx input inputlen
  return (flag r.1, r.2)

def secp256k1_ec_pubkey_serialize (L : Secp256k1) (ctx : Int) (outputlen : Nat)
    (pubkey : L.PubKey) (flags : Nat) : Native L (Int × Nat × List Byte) := do
  logCall (Call.ec_pubkey_serialize ctx outputlen pubkey flags)
  let r := L.ec_pubkey_serialize ctx outputlen pubkey flags
  return (flag r.1, r.2.1, r.2.2)

def secp256k1_ec_privkey_negate (L : Secp256k1) (ctx : Int) (seckey : List Byte) :
    Native L (Int × List Byte) := do
  logCall (Call.ec_privkey_negate ctx seckey)
  let r := L.ec_privkey_negate ctx seckey
  return (flag r.1, r.2)

def secp256k1_ec_privkey_tweak_add (L : Secp256k1) (ctx : Int) (seckey tweak : List Byte) :
    Native L (Int × List Byte) := do
  logCall (Call.ec_privkey_tweak_add ctx seckey tweak)
  let r := L.ec_privkey_tweak_add ctx seckey tweak
  return (flag r.1, r.2)

def secp256k1_ec_privkey_tweak_mul (L : Secp256k1) (ctx : Int) (seckey tweak : List Byte) :
    Native L (Int × List Byte) := do
  logCall (Call.ec_privkey_tweak_mul ctx seckey tweak)
  let r := L.ec_privkey_tweak_mul ctx seckey tweak
  return (flag r.1, r.2)

def secp256k1_ec_pubkey_negate (L : Secp256k1) (ctx : Int) (pubkey : L.PubKey) :
    Native L (Int × L.PubKey) := do
  logCall (Call.ec_pubkey_negate ctx pubkey)
  let r := L.ec_pubkey_negate ctx pubkey
  return (flag r.1, r.2)

def secp256k1_ec_pubkey_tweak_add (L : Secp256k1) (ctx : Int) (pubkey : L.PubKey)
    (tweak : List Byte) : Native L (Int × L.PubKey) := do
  logCall (Call.ec_pubkey_tweak_add ctx pubkey tweak)
  let r := L.ec_pubkey_tweak_add ctx pubkey tweak
  return (flag r.1, r.2)

def secp256k1_ec_pubkey_tweak_mul (L : Secp256k1) (ctx : Int) (pubkey : L.PubKey)
    (tweak : List Byte) : Native L (Int × L.PubKey) := do
  logCall (Call.ec_pubkey_tweak_mul ctx pubkey tweak)
  let r := L.ec_pubkey_tweak_mul ctx pubkey tweak
  return (flag r.1, r.2)

def secp256k1_ec_pubkey_combine (L : Secp256k1) (ctx : Int) (ins : List L.PubKey) :
    Native L (Int × L.PubKey) := do
  logCall (Call.ec_pubkey_combine ctx ins)
  let r := L.ec_pubkey_combine ctx ins
  return (flag r.1, r.2)

def secp256k1_ecdh (L : Secp256k1) (ctx : Int) (pubkey : L.PubKey) (privkey : List Byte)
    (hashfp : Option L.HashFn) (data : Option (List Byte)) : Native L (Int × List Byte) := do
  logCall (Call.ecdh ctx pubkey privkey hashfp data)
  let r := L.ecdh ctx pubkey privkey hashfp data
  return (flag r.1, r.2)

def secp256k1_ecdsa_recoverable_signature_parse_compact (L : Secp256k1) (ctx : Int)
    (input64 : List Byte) (recid : Int) : Native L (Int × L.RecSig) := do
  logCall (Call.ecdsa_recoverable_signature_parse_compact ctx input64 recid)
  let r := L.ecdsa_recoverable_signature_parse_compact ctx input64 recid
  return (flag r.1, r.2)

def secp256k1_ecdsa_recover (L : Secp256k1) (ctx : Int) (sig : L.RecSig) (msg32 : List Byte) :
    Native L (Int × L.PubKey) := do
  logCall (Call.ecdsa_recover ctx sig msg32)
  let r := L.ecdsa_recover ctx sig msg32
  return (flag r.1, r.2)

/-! ## Entry points

`data` (or `privkey`, `pkey`, ...) is the memory at the address returned by
`GetDirectBufferAddress`. A local buffer that the C code leaves
uninitialised (`outputSer`, `nonce_res`) is a parameter: the memory found
at its address on entry, which extends past the declared size of the buffer,
so that a copy of more bytes than the buffer was declared with reads what
follows it. The parameters `env` and `classObject` carry no data and are
left out. -/

/-- `Java_org_bitcoin_NativeSecp256k1_secp256k1_1ecdsa_1verify` (lines 46-76). -/
def Java_org_bitcoin_NativeSecp256k1_secp256k1_1ecdsa_1verify (L : Secp256k1)
    (data : Mem) (ctx_l : Int) (siglen publen : Nat) : Native L Int := do
  let ctx := ctx_l
  let sigdata : Mem := data.add 32
  let pubdata : Mem := data.add (siglen + 32)
  let r ← if siglen = 64 then
      secp256k1_ecdsa_signature_parse_compact L ctx (load sigdata 64)
    else
      secp256k1_ecdsa_signature_parse_der L ctx (load sigdata siglen) siglen
  let mut ret : Int := r.1
  let sig := r.2
  if ret ≠ 0 then
    let r ← secp256k1_ec_pubkey_parse L ctx (load pubdata publen) publen
    ret := r.1
    let pubkey := r.2
    if ret ≠ 0 then
      ret ← secp256k1_ecdsa_verify L ctx sig (load data 32) pubkey
  return ret

/-- `Java_org_bitcoin_NativeSecp256k1_secp256k1_1ecdsa_1sign` (lines 78-118). -/
def Java_org_bitcoin_NativeSecp256k1_secp256k1_1ecdsa_1sign (L : Secp256k1)
    (outputSer0 : Mem) (data : Mem) (ctx_l : Int) : Native L jobjectArray := do
  let ctx := ctx_l
  let secKey : Mem := data.add 32
  let r ← secp256k1_ecdsa_sign L ctx (load data 32) (load secKey 32) none none
  let sig := r.2
  let ret : Int := r.1
  let mut outputSer : Mem := outputSer0
  let mut outputLen : Nat := 72
  if ret ≠ 0 then
    let s ← secp256k1_ecdsa_signature_serialize_der L ctx outputLen sig
    outputSer := store outputSer s.2.2
    outputLen := s.2.1
  let intsarray : List Byte := [toUChar outputLen, toUChar ret]
  let mut retArray := NewObjectArray 2 (NewByteArray 1)
  let mut sigArray := NewByteArray outputLen
  sigArray := SetByteArrayRegion sigArray 0 outputLen outputSer
  retArray := SetObjectArrayElement retArray 0 sigArray
  let mut intsByteArray := NewByteArray 2
  intsByteArray := SetByteArrayRegion intsByteArray 0 2 (Mem.ofList intsarray)
  retArray := SetObjectArrayElement retArray 1 intsByteArray
  return retArray

/-- `Java_org_bitcoin_NativeSecp256k1_secp256k1_1ecdsa_1sign_1compact` (lines 120-160). -/
def Java_org_bitcoin_NativeSecp256k1_secp256k1_1ecdsa_1sign_1compact (L : Secp256k1)
    (outputSer0 : Mem) (data : Mem) (ctx_l : Int) : Native L jobjectArray := do
  let ctx := ctx_l
  let secKey : Mem := data.add 32
  let r ← secp256k1_ecdsa_sign L ctx (load data 32) (load secKey 32) none none
  let sig := r.2
  let ret : Int := r.1
  let mut outputSer : Mem := outputSer0
  let outputLen : Nat := 64
  if ret ≠ 0 then
    let s ← secp256k1_ecdsa_signature_serialize_compact L ctx sig
    outputSer := store outputSer s.2
  let intsarray : List Byte := [toUChar outputLen, toUChar ret]
  let mut retArray := NewObjectArray 2 (NewByteArray 1)
  let mut sigArray := NewByteArray outputLen
  sigArray := SetByteArrayRegion sigArray 0 outputLen outputSer
  retArray := SetObjectArrayElement retArray 0 sigArray
  let mut intsByteArray := NewByteArray 2
  intsByteArray := SetByteArrayRegion intsByteArray 0 2 (Mem.ofList intsarray)
  retArray := SetObjectArrayElement retArray 1 intsByteArray
  return retArray

/-- `Java_org_bitcoin_NativeSecp256k1_secp256k1_1ec_1seckey_1verify` (lines 163-172). -/
def Java_org_bitcoin_NativeSecp256k1_secp256k1_1ec_1seckey_1verify (L : Secp256k1)
    (secKey : Mem) (ctx_l : Int) : Native L Int := do
  let ctx := ctx_l
  secp256k1_ec_seckey_verify L ctx (load secKey 32)

/-- `Java_org_bitcoin_NativeSecp256k1_secp256k1_1ec_1pubkey_1create` (lines 174-213). -/
def Java_org_bitcoin_NativeSecp256k1_secp256k1_1ec_1pubkey_1create (L : Secp256k1)
    (outputSer0 : Mem) (secKey : Mem) (ctx_l : Int) : Native L jobjectArray := do
  let ctx := ctx_l
  let r ← secp256k1_ec_pubkey_create L ctx (load secKey 32)
  let pubkey := r.2
  let ret : Int := r.1
  let mut outputSer : Mem := outputSer0
  let mut outputLen : Nat := 65
  if ret ≠ 0 then
    let s ← secp256k1_ec_pubkey_serialize L ctx outputLen pubkey L.EC_UNCOMPRESSED
    outputSer := store outputSer s.2.2
    outputLen := s.2.1
  let intsarray : List Byte := [toUChar outputLen, toUChar ret]
  let mut retArray := NewObjectArray 2 (NewByteArray 1)
  let mut pubkeyArray := NewByteArray outputLen
  pubkeyArray := SetByteArrayRegion pubkeyArray 0 outputLen outputSer
  retArray := SetObjectArrayElement retArray 0 pubkeyArray
  let mut intsByteArray := NewByteArray 2
  intsByteArray := SetByteArrayRegion intsByteArray 0 2 (Mem.ofList intsarray)
  retArray := SetObjectArrayElement retArray 1 intsByteArray
  return retArray

/-- `Java_org_bitcoin_NativeSecp256k1_secp256k1_1ec_1pubkey_1parse` (lines 215-254). -/
def Java_org_bitcoin_NativeSecp256k1_secp256k1_1ec_1pubkey_1parse (L : Secp256k1)
    (outputSer0 : Mem) (pubkeydata : Mem) (ctx_l : Int) (inputlen : Nat) :
    Native L jobjectArray := do
  let ctx := ctx_l
  let r ← secp256k1_ec_pubkey_parse L ctx (load pubkeydata inputlen) inputlen
  let pubkey := r.2
  let ret : Int := r.1
  let mut outputSer : Mem := outputSer0
  let mut outputLen : Nat := 65
  if ret ≠ 0 then
    let s ← secp256k1_ec_pubkey_serialize L ctx outputLen pubkey L.EC_UNCOMPRESSED
    outputSer := store outputSer s.2.2
    outputLen := s.2.1
  let intsarray : List Byte := [toUChar outputLen, toUChar ret]
  let mut retArray := NewObjectArray 2 (NewByteArray 1)
  let mut pubkeyArray := NewByteArray outputLen
  pubkeyArray := SetByteArrayRegion pubkeyArray 0 outputLen outputSer
  retArray := SetObjectArrayElement retArray 0 pubkeyArray
  let mut intsByteArray := NewByteArray 2
  intsByteArray := SetByteArrayRegion intsByteArray 0 2 (Mem.ofList intsarray)
  retArray := SetObjectArrayElement retArray 1 intsByteArray
  return retArray

/-- `Java_org_bitcoin_NativeSecp256k1_secp256k1_1privkey_1negate` (lines 256-288). -/
def Java_org_bitcoin_NativeSecp256k1_secp256k1_1privkey_1negate (L : Secp256k1)
    (privkey0 : Mem) (ctx_l : Int) : Native L jobjectArray := do
  let ctx := ctx_l
  let mut privkey : Mem := privkey0
  let privkeylen : Nat := 32
  let r ← secp256k1_ec_privkey_negate L ctx (load privkey 32)
  privkey := store privkey r.2
  let ret : Int := r.1
  let intsarray : List Byte := [toUChar privkeylen, toUChar ret]
  let mut retArray := NewObjectArray 2 (NewByteArray 1)
  let mut privArray := NewByteArray privkeylen
  privArray := SetByteArrayRegion privArray 0 privkeylen privkey
  retArray := SetObjectArrayElement retArray 0 privArray
  let mut intsByteArray := NewByteArray 2
  intsByteArray := SetByteArrayRegion intsByteArray 0 2 (Mem.ofList intsarray)
  retArray := SetObjectArrayElement retArray 1 intsByteArray
  return retArray

/-- `Java_org_bitcoin_NativeSecp256k1_secp256k1_1privkey_1tweak_1add` (lines 290-323). -/
def Java_org_bitcoin_NativeSecp256k1_secp256k1_1privkey_1tweak_1add (L : Secp256k1)
    (privkey0 : Mem) (ctx_l : Int) : Native L jobjectArray := do
  let ctx := ctx_l
  let mut privkey : Mem := privkey0
  let tweak : Mem := privkey.add 32
  let privkeylen : Nat := 32
  let r ← secp256k1_ec_privkey_tweak_add L ctx (load privkey 32) (load tweak 32)
  privkey := store privkey r.2
  let ret : Int := r.1
  let intsarray : List Byte := [toUChar privkeylen, toUChar ret]
  let mut retArray := NewObjectArray 2 (NewByteArray 1)
  let mut privArray := NewByteArray privkeylen
  privArray := SetByteArrayRegion privArray 0 privkeylen privkey
  retArray := SetObjectArrayElement retArray 0 privArray
  let mut intsByteArray := NewByteArray 2
  intsByteArray := SetByteArrayRegion intsByteArray 0 2 (Mem.ofList intsarray)
  retArray := SetObjectArrayElement retArray 1 intsByteArray
  return retArray

/-- `Java_org_bitcoin_NativeSecp256k1_secp256k1_1privkey_1tweak_1mul` (lines 325-358). -/
def Java_org_bitcoin_NativeSecp256k1_secp256k1_1privkey_1tweak_1mul (L : Secp256k1)
    (privkey0 : Mem) (ctx_l : Int) : Native L jobjectArray := do
  let ctx := ctx_l
  let mut privkey : Mem := privkey0
  let tweak : Mem := privkey.add 32
  let privkeylen : Nat := 32
  let r ← secp256k1_ec_privkey_tweak_mul L ctx (load privkey 32) (load tweak 32)
  privkey := store privkey r.2
  let ret : Int := r.1
  let intsarray : List Byte := [toUChar privkeylen, toUChar ret]
  let mut retArray := NewObjectArray 2 (NewByteArray 1)
  let mut privArray := NewByteArray privkeylen
  privArray := SetByteArrayRegion privArray 0 privkeylen privkey
  retArray := SetObjectArrayElement retArray 0 privArray
  let mut intsByteArray := NewByteArray 2
  intsByteArray := SetByteArrayRegion intsByteArray 0 2 (Mem.ofList intsarray)
  retArray := SetObjectArrayElement retArray 1 intsByteArray
  return retArray

/-- `Java_org_bitcoin_NativeSecp256k1_secp256k1_1pubkey_1negate` (lines 360-401).
`outputSer` is declared with 65 bytes; `outputLen` starts as `publen`. -/
def Java_org_bitcoin_NativeSecp256k1_secp256k1_1pubkey_1negate (L : Secp256k1)
    (outputSer0 : Mem) (pkey : Mem) (ctx_l : Int) (publen : Nat) : Native L jobjectArray := do
  let ctx := ctx_l
  let mut outputSer : Mem := outputSer0
  let mut outputLen : Nat := publen
  let r ← secp256k1_ec_pubkey_parse L ctx (load pkey publen) publen
  let mut pubkey := r.2
  let mut ret : Int := r.1
  if ret ≠ 0 then
    let r ← secp256k1_ec_pubkey_negate L ctx pubkey
    pubkey := r.2
    ret := r.1
  if ret ≠ 0 then
    let s ← secp256k1_ec_pubkey_serialize L ctx outputLen pubkey
      (if publen = 33 then L.EC_COMPRESSED else L.EC_UNCOMPRESSED)
    outputSer := store outputSer s.2.2
    outputLen := s.2.1
  let intsarray : List Byte := [toUChar outputLen, toUChar ret]
  let mut retArray := NewObjectArray 2 (NewByteArray 1)
  let mut pubArray := NewByteArray outputLen
  pubArray := SetByteArrayRegion pubArray 0 outputLen outputSer
  retArray := SetObjectArrayElement retArray 0 pubArray
  let mut intsByteArray := NewByteArray 2
  intsByteArray := SetByteArrayRegion intsByteArray 0 2 (Mem.ofList intsarray)
  retArray := SetObjectArrayElement retArray 1 intsByteArray
  return retArray

/-- `Java_org_bitcoin_NativeSecp256k1_secp256k1_1pubkey_1tweak_1add` (lines 403-446). -/
def Java_org_bitcoin_NativeSecp256k1_secp256k1_1pubkey_1tweak_1add (L : Secp256k1)
    (outputSer0 : Mem) (pkey : Mem) (ctx_l : Int) (publen : Nat) : Native L jobjectArray := do
  let ctx := ctx_l
  let tweak : Mem := pkey.add publen
  let mut outputSer : Mem := outputSer0
  let mut outputLen : Nat := 65
  let r ← secp256k1_ec_pubkey_parse L ctx (load pkey publen) publen
  let mut pubkey := r.2
  let mut ret : Int := r.1
  if ret ≠ 0 then
    let r ← secp256k1_ec_pubkey_tweak_add L ctx pubkey (load tweak 32)
    pubkey := r.2
    ret := r.1
  if ret ≠ 0 then
    let s ← secp256k1_ec_pubkey_serialize L ctx outputLen pubkey L.EC_UNCOMPRESSED
    outputSer := store outputSer s.2.2
    outputLen := s.2.1
  let intsarray : List Byte := [toUChar outputLen, toUChar ret]
  let mut retArray := NewObjectArray 2 (NewByteArray 1)
  let mut pubArray := NewByteArray outputLen
  pubArray := SetByteArrayRegion pubArray 0 outputLen outputSer
  retArray := SetObjectArrayElement retArray 0 pubArray
  let mut intsByteArray := NewByteArray 2
  intsByteArray := SetByteArrayRegion intsByteArray 0 2 (Mem.ofList intsarray)
  retArray := SetObjectArrayElement retArray 1 intsByteArray
  return retArray

/-- `Java_org_bitcoin_NativeSecp256k1_secp256k1_1pubkey_1tweak_1mul` (lines 448-490). -/
def Java_org_bitcoin_NativeSecp256k1_secp256k1_1pubkey_1tweak_1mul (L : Secp256k1)
    (outputSer0 : Mem) (pkey : Mem) (ctx_l : Int) (publen : Nat) : Native L jobjectArray := do
  let ctx := ctx_l
  let tweak : Mem := pkey.add publen
  let mut outputSer : Mem := outputSer0
  let mut outputLen : Nat := 65
  let r ← secp256k1_ec_pubkey_parse L ctx (load pkey publen) publen
  let mut pubkey := r.2
  let mut ret : Int := r.1
  if ret ≠ 0 then
    let r ← secp256k1_ec_pubkey_tweak_mul L ctx pubkey (load tweak 32)
    pubkey := r.2
    ret := r.1
  if ret ≠ 0 then
    let s ← secp256k1_ec_pubkey_serialize L ctx outputLen pubkey L.EC_UNCOMPRESSED
    outputSer := store outputSer s.2.2
    outputLen := s.2.1
  let intsarray : List Byte := [toUChar outputLen, toUChar ret]
  let mut retArray := NewObjectArray 2 (NewByteArray 1)
  let mut pubArray := NewByteArray outputLen
  pubArray := SetByteArrayRegion pubArray 0 outputLen outputSer
  retArray := SetObjectArrayElement retArray 0 pubArray
  let mut intsByteArray := NewByteArray 2
  intsByteArray := SetByteArrayRegion intsByteArray 0 2 (Mem.ofList intsarray)
  retArray := SetObjectArrayElement retArray 1 intsByteArray
  return retArray

/-- `Java_org_bitcoin_NativeSecp256k1_secp256k1_1ec_1pubkey_1add` (lines 492-537).
The locals `pubkey2` and `result` are written only inside a guarded block
and read only in a later block under the same guard; the three `if (ret)`
blocks in sequence are written here as nested blocks, which runs the same
statements since `ret`, once zero, is not assigned again. -/
def Java_org_bitcoin_NativeSecp256k1_secp256k1_1ec_1pubkey_1add (L : Secp256k1)
    (outputSer0 : Mem) (pubdata1 : Mem) (ctx_l : Int) (publen1 publen2 : Nat) :
    Native L jobjectArray := do
  let ctx := ctx_l
  let pubdata2 : Mem := pubdata1.add publen1
  let mut outputSer : Mem := outputSer0
  let mut outputLen : Nat := 65
  let r ← secp256k1_ec_pubkey_parse L ctx (load pubdata1 publen1) publen1
  let pubkey1 := r.2
  let mut ret : Int := r.1
  if ret ≠ 0 then
    let r ← secp256k1_ec_pubkey_parse L ctx (load pubdata2 publen2) publen2
    let pubkey2 := r.2
    ret := r.1
    if ret ≠ 0 then
      let pubkeys := [pubkey1, pubkey2]
      let r ← secp256k1_ec_pubkey_combine L ctx pubkeys
      let result := r.2
      ret := r.1
      if ret ≠ 0 then
        let s ← secp256k1_ec_pubkey_serialize L ctx outputLen result L.EC_UNCOMPRESSED
        ret := s.1
        outputSer := store outputSer s.2.2
        outputLen := s.2.1
  let intsarray : List Byte := [toUChar outputLen, toUChar ret]
  let mut retArray := NewObjectArray 2 (NewByteArray 1)
  let mut pubArray := NewByteArray outputLen
  pubArray := SetByteArrayRegion pubArray 0 outputLen outputSer
  retArray := SetObjectArrayElement retArray 0 pubArray
  let mut intsByteArray := NewByteArray 2
  intsByteArray := SetByteArrayRegion intsByteArray 0 2 (Mem.ofList intsarray)
  retArray := SetObjectArrayElement retArray 1 intsByteArray
  return retArray

/-- `Java_org_bitcoin_NativeSecp256k1_secp256k1_1ecdh` (lines 539-583). -/
def Java_org_bitcoin_NativeSecp256k1_secp256k1_1ecdh (L : Secp256k1)
    (nonce_res0 : Mem) (secdata : Mem) (ctx_l : Int) (publen : Nat) : Native L jobjectArray := do
  let ctx := ctx_l
  let pubdata : Mem := secdata.add 32
  let mut nonce_res : Mem := nonce_res0
  let outputLen : Nat := 32
  let r ← secp256k1_ec_pubkey_parse L ctx (load pubdata publen) publen
  let pubkey := r.2
  let mut ret : Int := r.1
  if ret ≠ 0 then
    let r ← secp256k1_ecdh L ctx pubkey (load secdata 32) none none
    nonce_res := store nonce_res r.2
    ret := r.1
  let intsarray : List Byte := [toUChar ret]
  let mut retArray := NewObjectArray 2 (NewByteArray 1)
  let mut outArray := NewByteArray outputLen
  outArray := SetByteArrayRegion outArray 0 32 nonce_res
  retArray := SetObjectArrayElement retArray 0 outArray
  let mut intsByteArray := NewByteArray 1
  intsByteArray := SetByteArrayRegion intsByteArray 0 1 (Mem.ofList intsarray)
  retArray := SetObjectArrayElement retArray 1 intsByteArray
  return retArray

/-- `Java_org_bitcoin_NativeSecp256k1_secp256k1_1ecdsa_1recover` (lines 590-629). -/
def Java_org_bitcoin_NativeSecp256k1_secp256k1_1ecdsa_1recover (L : Secp256k1)
    (outputSer0 : Mem) (sigdata : Mem) (ctx_l : Int) (recid : Int) : Native L jobjectArray := do
  let ctx := ctx_l
  let msgdata : Mem := sigdata.add 64
  let mut outputSer : Mem := outputSer0
  let mut outputLen : Nat := 65
  let r ← secp256k1_ecdsa_recoverable_signature_parse_compact L ctx (load sigdata 64) recid
  let sig := r.2
  let mut ret : Int := r.1
  if ret ≠ 0 then
    let r ← secp256k1_ecdsa_recover L ctx sig (load msgdata 32)
    let pub := r.2
    ret := r.1
    if ret ≠ 0 then
      let s ← secp256k1_ec_pubkey_serialize L ctx outputLen pub L.EC_UNCOMPRESSED
      ret := s.1
      outputSer := store outputSer s.2.2
      outputLen := s.2.1
  let intsarray : List Byte := [toUChar ret]
  let mut retArray := NewObjectArray 2 (NewByteArray 1)
  let mut pubArray := NewByteArray outputLen
  pubArray := SetByteArrayRegion pubArray 0 outputLen outputSer
  retArray := SetObjectArrayElement retArray 0 pubArray
  let mut intsByteArray := NewByteArray 1
  intsByteArray := SetByteArrayRegion intsByteArray 0 1 (Mem.ofList intsarray)
  retArray := SetObjectArrayElement retArray 1 intsByteArray
  return retArray

/-! ## Reading a returned `byte[][]` -/

/-- Element 0 of a returned array: the payload. -/
def payloadOf (res : jobjectArray) : Option jbyteArray := res.get? 0

/-- Element 1 of a returned array. -/
def intsOf (res : jobjectArray) : Option jbyteArray := res.get? 1

/-- The status byte of a result whose element 1 is `[length, status]`. -/
def statusOf2 (res : jobjectArray) : Option Byte := (intsOf res).bind (fun a => a.get? 1)

/-- The length byte of a result whose element 1 is `[length, status]`. -/
def lengthOf2 (res : jobjectArray) : Option Byte := (intsOf res).bind (fun a => a.get? 0)

/-- The status byte of a result whose element 1 is `[status]`. -/
def statusOf1 (res : jobjectArray) : Option Byte := (intsOf res).bind (fun a => a.get? 0)

/-- The signature parse made by `ecdsa_verify`: compact when `siglen` is 64, DER otherwise. -/
def verifySigParse (L : Secp256k1) (data : Mem) (ctx : Int) (siglen : Nat) : Bool × L.Sig :=
  if siglen = 64 then L.ecdsa_signature_parse_compact ctx (load (data.add 32) 64)
  else L.ecdsa_signature_parse_der ctx (load (data.add 32) siglen) siglen

/-- The public-key parse made by `ecdsa_verify`. -/
def verifyPubParse (L : Secp256k1) (data : Mem) (ctx : Int) (siglen publen : Nat) :
    Bool × L.PubKey :=
  L.ec_pubkey_parse ctx (load (data.add (siglen + 32)) publen) publen

/-- A log entry is a call of `secp256k1_ecdsa_verify`. -/
def Call.isVerify {L : Secp256k1} : Call L → Bool
  | Call.ecdsa_verify _ _ _ _ => true
  | _ => false

/-- A log entry is a call of `secp256k1_ecdh`. -/
def Call.isEcdh {L : Secp256k1} : Call L → Bool
  | Call.ecdh _ _ _ _ _ => true
  | _ => false

/-- A log entry is a call of `secp256k1_ecdsa_signature_parse_compact`. -/
def Call.isParseCompact {L : Secp256k1} : Call L → Bool
  | Call.ecdsa_signature_parse_compact _ _ => true
  | _ => false

/-- A log entry is a call of `secp256k1_ecdsa_signature_parse_der`. -/
def Call.isParseDer {L : Secp256k1} : Call L → Bool
  | Call.ecdsa_signature_parse_der _ _ _ => true
  | _ => false

/-- A returned array `[payload, [length, status]]` whose length byte is the
number of bytes of the payload. -/
def LengthByteMatches (res : jobjectArray) : Prop :=
  ∃ (payload : jbyteArray) (status : Byte), res = [payload, [payload.length, status]]

/-! ## Success of the operation behind each array-returning entry point -/

/-- The private key `0x00...01`. -/
def keyOne : List Byte := List.replicate 31 0 ++ [1]

/-! ## Contracts of the library

The properties of the library that the claims about sign/verify, DER length,
key creation and negation rest on. They are hypotheses of the theorems that
need them, and `Sample.lib` below meets them all. -/

/-- Modelled from the spec: "DER signature: standard ASN.1 SEQUENCE of two
INTEGERs (r, s), minimal-length encoding, max 72 bytes." Given room for 72
bytes, the DER serializer reports at most 72. -/
def DerLengthContract (L : Secp256k1) (ctx : Int) : Prop :=
  ∀ sig : L.Sig, (L.ecdsa_signature_serialize_der ctx 72 sig).2.1 ≤ 72

/-- Modelled from the spec: "Round-trip: DER-decode(DER-encode(sig)) == sig for
all valid (r,s) pairs" and "max 72 bytes". Given room for 72 bytes the DER
serializer succeeds, reports the number of bytes it wrote, and the DER parser
given exactly those bytes returns the signature. -/
def DerContract (L : Secp256k1) (ctx : Int) : Prop :=
  ∀ sig : L.Sig, ∃ der : List Byte, der.length ≤ 72 ∧
    L.ecdsa_signature_serialize_der ctx 72 sig = (true, der.length, der) ∧
    L.ecdsa_signature_parse_der ctx der der.length = (true, sig)

/-- Modelled from the spec: "Round-trip: parse(serialize(pubkey)) == pubkey for
both compressed and uncompressed encodings", "Uncompressed public key: 65 bytes
= 0x04 + 32-byte x + 32-byte y", "Compressed public key: 33 bytes". -/
def PubkeyContract (L : Secp256k1) (ctx : Int) : Prop :=
  ∀ P : L.PubKey,
    (∃ enc : List Byte, enc.length = 65 ∧ enc.head? = some 4 ∧
      L.ec_pubkey_serialize ctx 65 P L.EC_UNCOMPRESSED = (true, 65, enc) ∧
      L.ec_pubkey_parse ctx enc 65 = (true, P)) ∧
    (∃ enc : List Byte, enc.length = 33 ∧
      L.ec_pubkey_serialize ctx 33 P L.EC_COMPRESSED = (true, 33, enc) ∧
      L.ec_pubkey_parse ctx enc 33 = (true, P))

/-- Modelled from the spec: "Private key: 32 bytes, big-endian, value in
[1, n−1]": the library derives a public key from every valid private key. -/
def CreateContract (L : Secp256k1) (ctx : Int) : Prop :=
  ∀ k : List Byte, k.length = 32 → L.ec_seckey_verify ctx k = true →
    (L.ec_pubkey_create ctx k).1 = true

/-- Modelled from the spec: "For all valid private keys k and messages h:
verify(pubkey(k), h, sign(k, h)) == true", for the library routines with the
default nonce function. -/
def SignVerifyContract (L : Secp256k1) (ctx : Int) : Prop :=
  ∀ h k : List Byte, h.length = 32 → k.length = 32 → L.ec_seckey_verify ctx k = true →
    (L.ecdsa_sign ctx h k none none).1 = true ∧ (L.ec_pubkey_create ctx k).1 = true ∧
    L.ecdsa_verify ctx (L.ecdsa_sign ctx h k none none).2 h (L.ec_pubkey_create ctx k).2 = true

/-- Modelled from the spec: "Negate is its own inverse: negate(negate(k)) == k
for keys; negate(negate(Q)) == Q for points." Negation succeeds, a negated
private key is again 32 bytes, and negating twice gives the input back. -/
def NegateContract (L : Secp256k1) (ctx : Int) : Prop :=
  (∀ k : List Byte, k.length = 32 → L.ec_seckey_verify ctx k = true →
    (L.ec_privkey_negate ctx k).1 = true ∧ (L.ec_privkey_negate ctx k).2.length = 32 ∧
    L.ec_privkey_negate ctx (L.ec_privkey_negate ctx k).2 = (true, k)) ∧
  (∀ P : L.PubKey, (L.ec_pubkey_negate ctx P).1 = true ∧
    L.ec_pubkey_negate ctx (L.ec_pubkey_negate ctx P).2 = (true, P))

/-- `Q` is an encoding of a public key: the library parses it, and serializing
the parsed key in the form that goes with the length of `Q` (compressed for
33 bytes, uncompressed otherwise) gives `Q` back. -/
def IsPubkeyEncoding (L : Secp256k1) (ctx : Int) (Q : List Byte) : Prop :=
  ∃ P : L.PubKey, L.ec_pubkey_parse ctx Q Q.length = (true, P) ∧
    L.ec_pubkey_serialize ctx Q.length P
      (if Q.length = 33 then L.EC_COMPRESSED else L.EC_UNCOMPRESSED) = (true, Q.length, Q)

/-! ## A small instance of the library interface

Keys, signatures and public keys use the byte formats of the real library
(32-byte big-endian integers, DER, compact, compressed and uncompressed
points); the curve is replaced by the integers modulo `2^256` under
addition, with generator 1, so that the public key of `k` is `k` itself and
a signature on `h` by `k` is the pair `(h, k)`. It serves to show that the
contracts above can be met together and to run the entry points on
concrete buffers. -/

namespace Sample

/-- The order of the secp256k1 group. -/
def N : Nat := 0xFFFFFFFFFFFFFFFFFFFFFFFFFFFFFFFEBAAEDCE6AF48A03BBFD25E8CD0364141

/-- A 256-bit value. -/
abbrev U256 := Fin (2 ^ 256)

/-- Reduction of a natural number to 256 bits. -/
def u256 (n : Nat) : U256 := ⟨n % 2 ^ 256, Nat.mod_lt n (Nat.two_pow_pos 256)⟩

/-- The `len` big-endian bytes of `n`. -/
def toBE : Nat → Nat → List Byte
  | 0, _ => []
  | len + 1, n => toBE len (n / 256) ++ [n % 256]

/-- The value of a big-endian byte string. -/
def fromBE (bs : List Byte) : Nat := bs.foldl (fun acc b => acc * 256 + b) 0

/-- The content of a DER INTEGER: leading zero bytes are dropped as long as the
byte that follows has its top bit clear. -/
def derInt : List Byte → List Byte
  | [] => []
  | b :: tl =>
    match tl with
    | [] => [b]
    | c :: _ => if b = 0 ∧ c < 128 then derInt tl else b :: tl

/-- DER encoding of a signature `(r, s)`. -/
def derEncode (sig : U256 × U256) : List Byte :=
  let R := derInt (0 :: toBE 32 sig.1.val)
  let S := derInt (0 :: toBE 32 sig.2.val)
  [0x30, 4 + R.length + S.length, 0x02, R.length] ++ R ++ [0x02, S.length] ++ S

/-- Strict DER parsing of a signature. -/
def derDecode (input : List Byte) (inputlen : Nat) : Bool × (U256 × U256) :=
  match input with
  | tag :: l :: t1 :: lr :: rest =>
    match rest.drop lr with
    | t2 :: ls :: rest2 =>
      if tag = 0x30 ∧ t1 = 0x02 ∧ t2 = 0x02 ∧ input.length = inputlen ∧ l + 2 = inputlen ∧
          4 + lr + ls = l ∧ lr ≤ rest.length ∧ rest2.length = ls ∧
          fromBE (rest.take lr) < 2 ^ 256 ∧ fromBE rest2 < 2 ^ 256 then
        (true, (u256 (fromBE (rest.take lr)), u256 (fromBE rest2)))
      else (false, (0, 0))
    | _ => (false, (0, 0))
  | _ => (false, (0, 0))

/-- Compact parsing: 32 bytes of `r`, 32 bytes of `s`, both below the group order. -/
def compactDecode (input64 : List Byte) : Bool × (U256 × U256) :=
  let r := fromBE (input64.take 32)
  let s := fromBE (input64.drop 32)
  (decide (input64.length = 64 ∧ r < N ∧ s < N), (u256 r, u256 s))

/-- A valid private key: 32 bytes, each below 256, of value in `[1, N-1]`. -/
def seckeyValid (k : List Byte) : Bool :=
  decide (k.length = 32 ∧ (∀ b ∈ k, b < 256) ∧ 0 < fromBE k ∧ fromBE k < N)

/-- Serialization of a public key `(x, odd)`. -/
def pubkeySerialize (outputlen : Nat) (P : U256 × Bool) (flags : Nat) : Bool × Nat × List Byte :=
  if flags = 258 then
    if 33 ≤ outputlen then (true, 33, (if P.2 then 3 else 2) :: toBE 32 P.1.val)
    else (false, 0, [])
  else
    if 65 ≤ outputlen then
      (true, 65, 4 :: (toBE 32 P.1.val ++ toBE 32 (if P.2 then 1 else 0)))
    else (false, 0, [])

/-- Parsing of a public key: 33 bytes with prefix 2 or 3, or 65 bytes with prefix
4 and `y` equal to 0 or 1. -/
def pubkeyParse (input : List Byte) (inputlen : Nat) : Bool × (U256 × Bool) :=
  match input with
  | [] => (false, (0, false))
  | tag :: rest =>
    if inputlen = 33 ∧ rest.length = 32 ∧ (tag = 2 ∨ tag = 3) ∧ fromBE rest < 2 ^ 256 then
      (true, (u256 (fromBE rest), decide (tag = 3)))
    else if inputlen = 65 ∧ rest.length = 64 ∧ tag = 4 ∧ fromBE (rest.take 32) < 2 ^ 256 ∧
        fromBE (rest.drop 32) ≤ 1 then
      (true, (u256 (fromBE (rest.take 32)), decide (fromBE (rest.drop 32) = 1)))
    else (false, (0, false))

/-- Addition of a point to a partial sum; `none` is the point at infinity. -/
def addPoint : Option (U256 × Bool) → U256 × Bool → Option (U256 × Bool)
  | none, p => some p
  | some a, p => if a.1 = p.1 ∧ a.2 ≠ p.2 then none else some (a.1 + p.1, xor a.2 p.2)

/-- The instance. -/
def lib : Secp256k1 where
  Sig := U256 × U256
  PubKey := U256 × Bool
  RecSig := (U256 × U256) × Int
  NonceFn := Unit
  HashFn := Unit
  EC_COMPRESSED := 258
  EC_UNCOMPRESSED := 2
  ecdsa_signature_parse_compact := fun _ input64 => compactDecode input64
  ecdsa_signature_parse_der := fun _ input inputlen => derDecode input inputlen
  ecdsa_signature_serialize_der := fun _ outputlen sig =>
    if (derEncode sig).length ≤ outputlen then (true, (derEncode sig).length, derEncode sig)
    else (false, (derEncode sig).length, [])
  ecdsa_signature_serialize_compact := fun _ sig => (true, toBE 32 sig.1.val ++ toBE 32 sig.2.val)
  ecdsa_verify := fun _ sig msg32 pubkey =>
    decide (sig.1 = u256 (fromBE msg32) ∧ pubkey = (sig.2, false))
  ecdsa_sign := fun _ msg32 seckey _ _ =>
    (seckeyValid seckey, (u256 (fromBE msg32), u256 (fromBE seckey)))
  ec_seckey_verify := fun _ seckey => seckeyValid seckey
  ec_pubkey_create := fun _ seckey => (seckeyValid seckey, (u256 (fromBE seckey), false))
  ec_pubkey_parse := fun _ input inputlen => pubkeyParse input inputlen
  ec_pubkey_serialize := fun _ outputlen pubkey flags => pubkeySerialize outputlen pubkey flags
  ec_privkey_negate := fun _ seckey => (true, toBE 32 ((N - fromBE seckey % N) % N))
  ec_privkey_tweak_add := fun _ seckey tweak =>
    (seckeyValid seckey && decide (fromBE tweak < N ∧ (fromBE seckey + fromBE tweak) % N ≠ 0),
      toBE 32 ((fromBE seckey + fromBE tweak) % N))
  ec_privkey_tweak_mul := fun _ seckey tweak =>
    (seckeyValid seckey && decide (0 < fromBE tweak ∧ fromBE tweak < N),
      toBE 32 ((fromBE seckey * fromBE tweak) % N))
  ec_pubkey_negate := fun _ pubkey => (true, (pubkey.1, !pubkey.2))
  ec_pubkey_tweak_add := fun _ pubkey tweak =>
    (decide (fromBE tweak < N), (pubkey.1 + u256 (fromBE tweak), pubkey.2))
  ec_pubkey_tweak_mul := fun _ pubkey tweak =>
    (decide (0 < fromBE tweak ∧ fromBE tweak < N), (pubkey.1 * u256 (fromBE tweak), pubkey.2))
  ec_pubkey_combine := fun _ ins =>
    match ins.foldl addPoint none with
    | some p => (true, p)
    | none => (false, (0, false))
  ecdh := fun _ pubkey privkey _ _ =>
    (seckeyValid privkey, toBE 32 ((pubkey.1 * u256 (fromBE privkey)).val))
  ecdsa_recoverable_signature_parse_compact := fun _ input64 recid =>
    ((compactDecode input64).1 && decide (0 ≤ recid ∧ recid ≤ 3), ((compactDecode input64).2, recid))
  ecdsa_recover := fun _ sig msg32 =>
    (decide (sig.1.1 = u256 (fromBE msg32)), (sig.1.2, false))


/-- A 32-byte hash whose value has 29 significant bytes. -/
def hash64 : List Byte := [0, 0, 0, 1] ++ List.replicate 28 0

/-- A valid private key whose value has 29 significant bytes. -/
def key64 : List Byte := [0, 0, 0, 2] ++ List.replicate 28 0

/-- The DER signature of `hash64` under `key64` in the instance: 64 bytes. -/
def der64 : List Byte :=
  [0x30, 62, 0x02, 29, 1] ++ List.replicate 28 0 ++ [0x02, 29, 2] ++ List.replicate 28 0

/-- The uncompressed public key of `key64` in the instance. -/
def pub64 : List Byte := [4, 0, 0, 0, 2] ++ List.replicate 28 0 ++ List.replicate 32 0

/-- A 32-byte hash with its top bit set. -/
def hashA : List Byte := List.replicate 32 0xAB

/-- The compressed public key of `keyOne` in the instance. -/
def pubOneCompressed : List Byte := [2] ++ List.replicate 31 0 ++ [1]

/-- Memory filled with zero bytes. -/
def zeroMem : Mem := fun _ => 0

end Sample

/-! # Theorems -/

/-! ## Basic facts about the memory and array model -/

theorem flag_ne_zero (b : Bool) : flag b ≠ 0 ↔ b = true := by
  cases b <;> simp [flag]

theorem flag_eq_one (b : Bool) : flag b = 1 ↔ b = true := by
  cases b <;> simp [flag]

theorem flag_eq_zero (b : Bool) : flag b = 0 ↔ b = false := by
  cases b <;> simp [flag]

theorem toUChar_flag (b : Bool) : toUChar (flag b) = if b then 1 else 0 := by
  cases b <;> simp [flag, toUChar]

theorem toUChar_zero : toUChar 0 = 0 := by decide

theorem toUChar_one : toUChar 1 = 1 := by decide

theorem load_length (p : Mem) (n : Nat) : (load p n).length = n := by
  simp [load]

theorem setRegion_new (n : Nat) (buf : Mem) :
    SetByteArrayRegion (NewByteArray n) 0 n buf = load buf n := by
  simp [SetByteArrayRegion, NewByteArray]

theorem load_ofList_two (a b : Byte) : load (Mem.ofList [a, b]) 2 = [a, b] := by
  simp [load, Mem.ofList, List.range_succ]

theorem load_ofList_one (a : Byte) : load (Mem.ofList [a]) 1 = [a] := by
  simp [load, Mem.ofList, List.range_succ]

theorem retArray_two (x y : jbyteArray) :
    SetObjectArrayElement (SetObjectArrayElement (NewObjectArray 2 (NewByteArray 1)) 0 x) 1 y
      = [x, y] := by
  simp [SetObjectArrayElement, NewObjectArray]

/-! ## Closed forms of the entry points -/

theorem ecdsa_sign_exec (L : Secp256k1) (outputSer0 data : Mem) (ctx : Int) :
    (Java_org_bitcoin_NativeSecp256k1_secp256k1_1ecdsa_1sign L outputSer0 data ctx).exec =
      (let r := L.ecdsa_sign ctx (load data 32) (load (data.add 32) 32) none none
       let s := L.ecdsa_signature_serialize_der ctx 72 r.2
       if r.1 = true then
         ([load (store outputSer0 s.2.2) s.2.1, [toUChar s.2.1, 1]],
          [Call.ecdsa_sign ctx (load data 32) (load (data.add 32) 32) none none,
           Call.ecdsa_signature_serialize_der ctx 72 r.2])
       else
         ([load outputSer0 72, [72, 0]],
          [Call.ecdsa_sign ctx (load data 32) (load (data.add 32) 32) none none])) := by
  simp only [Native.exec, Java_org_bitcoin_NativeSecp256k1_secp256k1_1ecdsa_1sign,
    secp256k1_ecdsa_sign, secp256k1_ecdsa_signature_serialize_der, logCall]
  cases h : (L.ecdsa_sign ctx (load data 32) (load (data.add 32) 32) none none).1 <;>
    simp [h, flag, setRegion_new, load_ofList_two, retArray_two, toUChar]

theorem ecdsa_verify_exec (L : Secp256k1) (data : Mem) (ctx : Int) (siglen publen : Nat) :
    (Java_org_bitcoin_NativeSecp256k1_secp256k1_1ecdsa_1verify L data ctx siglen publen).exec =
      (let sigCall : Call L :=
         if siglen = 64 then Call.ecdsa_signature_parse_compact ctx (load (data.add 32) 64)
         else Call.ecdsa_signature_parse_der ctx (load (data.add 32) siglen) siglen
       let s := if siglen = 64 then L.ecdsa_signature_parse_compact ctx (load (data.add 32) 64)
         else L.ecdsa_signature_parse_der ctx (load (data.add 32) siglen) siglen
       let p := L.ec_pubkey_parse ctx (load (data.add (siglen + 32)) publen) publen
       if s.1 = true then
         if p.1 = true then
           (flag (L.ecdsa_verify ctx s.2 (load data 32) p.2),
            [sigCall, Call.ec_pubkey_parse ctx (load (data.add (siglen + 32)) publen) publen,
             Call.ecdsa_verify ctx s.2 (load data 32) p.2])
         else (0, [sigCall, Call.ec_pubkey_parse ctx (load (data.add (siglen + 32)) publen) publen])
       else (0, [sigCall])) := by
  simp only [Native.exec, Java_org_bitcoin_NativeSecp256k1_secp256k1_1ecdsa_1verify,
    secp256k1_ecdsa_signature_parse_compact, secp256k1_ecdsa_signature_parse_der,
    secp256k1_ec_pubkey_parse, secp256k1_ecdsa_verify, logCall]
  cases hp : (L.ec_pubkey_parse ctx (load (data.add (siglen + 32)) publen) publen).1 <;>
  by_cases h64 : siglen = 64
  · cases hs : (L.ecdsa_signature_parse_compact ctx (load (data.add 32) 64)).1 <;>
      simp [h64, hs, hp, flag]
  · cases hs : (L.ecdsa_signature_parse_der ctx (load (data.add 32) siglen) siglen).1 <;>
      simp [h64, hs, hp, flag]
  · cases hs : (L.ecdsa_signature_parse_compact ctx (load (data.add 32) 64)).1 <;>
      simp [h64, hs, hp, flag]
  · cases hs : (L.ecdsa_signature_parse_der ctx (load (data.add 32) siglen) siglen).1 <;>
      simp [h64, hs, hp, flag]

theorem ecdsa_sign_compact_exec (L : Secp256k1) (outputSer0 data : Mem) (ctx : Int) :
    (Java_org_bitcoin_NativeSecp256k1_secp256k1_1ecdsa_1sign_1compact L outputSer0 data ctx).exec =
      (let r := L.ecdsa_sign ctx (load data 32) (load (data.add 32) 32) none none
       let s := L.ecdsa_signature_serialize_compact ctx r.2
       if r.1 = true then
         ([load (store outputSer0 s.2) 64, [64, 1]],
          [Call.ecdsa_sign ctx (load data 32) (load (data.add 32) 32) none none,
           Call.ecdsa_signature_serialize_compact ctx r.2])
       else
         ([load outputSer0 64, [64, 0]],
          [Call.ecdsa_sign ctx (load data 32) (load (data.add 32) 32) none none])) := by
  simp only [Native.exec, Java_org_bitcoin_NativeSecp256k1_secp256k1_1ecdsa_1sign_1compact,
    secp256k1_ecdsa_sign, secp256k1_ecdsa_signature_serialize_compact, logCall]
  cases h : (L.ecdsa_sign ctx (load data 32) (load (data.add 32) 32) none none).1 <;>
    simp [h, flag, setRegion_new, load_ofList_two, retArray_two, toUChar]

theorem ec_pubkey_create_exec (L : Secp256k1) (outputSer0 secKey : Mem) (ctx : Int) :
    (Java_org_bitcoin_NativeSecp256k1_secp256k1_1ec_1pubkey_1create L outputSer0 secKey ctx).exec =
      (let r := L.ec_pubkey_create ctx (load secKey 32)
       let s := L.ec_pubkey_serialize ctx 65 r.2 L.EC_UNCOMPRESSED
       if r.1 = true then
         ([load (store outputSer0 s.2.2) s.2.1, [toUChar s.2.1, 1]],
          [Call.ec_pubkey_create ctx (load secKey 32),
           Call.ec_pubkey_serialize ctx 65 r.2 L.EC_UNCOMPRESSED])
       else
         ([load outputSer0 65, [65, 0]], [Call.ec_pubkey_create ctx (load secKey 32)])) := by
  simp only [Native.exec, Java_org_bitcoin_NativeSecp256k1_secp256k1_1ec_1pubkey_1create,
    secp256k1_ec_pubkey_create, secp256k1_ec_pubkey_serialize, logCall]
  cases h : (L.ec_pubkey_create ctx (load secKey 32)).1 <;>
    simp [h, flag, setRegion_new, load_ofList_two, retArray_two, toUChar]

theorem ec_pubkey_parse_exec (L : Secp256k1) (outputSer0 pubkeydata : Mem) (ctx : Int)
    (inputlen : Nat) :
    (Java_org_bitcoin_NativeSecp256k1_secp256k1_1ec_1pubkey_1parse L outputSer0 pubkeydata ctx inputlen).exec =
      (let r := L.ec_pubkey_parse ctx (load pubkeydata inputlen) inputlen
       let s := L.ec_pubkey_serialize ctx 65 r.2 L.EC_UNCOMPRESSED
       if r.1 = true then
         ([load (store outputSer0 s.2.2) s.2.1, [toUChar s.2.1, 1]],
          [Call.ec_pubkey_parse ctx (load pubkeydata inputlen) inputlen,
           Call.ec_pubkey_serialize ctx 65 r.2 L.EC_UNCOMPRESSED])
       else
         ([load outputSer0 65, [65, 0]],
          [Call.ec_pubkey_parse ctx (load pubkeydata inputlen) inputlen])) := by
  simp only [Native.exec, Java_org_bitcoin_NativeSecp256k1_secp256k1_1ec_1pubkey_1parse,
    secp256k1_ec_pubkey_parse, secp256k1_ec_pubkey_serialize, logCall]
  cases h : (L.ec_pubkey_parse ctx (load pubkeydata inputlen) inputlen).1 <;>
    simp [h, flag, setRegion_new, load_ofList_two, retArray_two, toUChar]

theorem privkey_negate_exec (L : Secp256k1) (privkey0 : Mem) (ctx : Int) :
    (Java_org_bitcoin_NativeSecp256k1_secp256k1_1privkey_1negate L privkey0 ctx).exec =
      (let r := L.ec_privkey_negate ctx (load privkey0 32)
       ([load (store privkey0 r.2) 32, [32, if r.1 = true then 1 else 0]],
        [Call.ec_privkey_negate ctx (load privkey0 32)])) := by
  simp only [Native.exec, Java_org_bitcoin_NativeSecp256k1_secp256k1_1privkey_1negate, secp256k1_ec_privkey_negate, logCall]
  cases h : (L.ec_privkey_negate ctx (load privkey0 32)).1 <;>
    simp [h, flag, setRegion_new, load_ofList_two, retArray_two, toUChar]

theorem privkey_tweak_add_exec (L : Secp256k1) (privkey0 : Mem) (ctx : Int) :
    (Java_org_bitcoin_NativeSecp256k1_secp256k1_1privkey_1tweak_1add L privkey0 ctx).exec =
      (let r := L.ec_privkey_tweak_add ctx (load privkey0 32) (load (privkey0.add 32) 32)
       ([load (store privkey0 r.2) 32, [32, if r.1 = true then 1 else 0]],
        [Call.ec_privkey_tweak_add ctx (load privkey0 32) (load (privkey0.add 32) 32)])) := by
  simp only [Native.exec, Java_org_bitcoin_NativeSecp256k1_secp256k1_1privkey_1tweak_1add, secp256k1_ec_privkey_tweak_add, logCall]
  cases h : (L.ec_privkey_tweak_add ctx (load privkey0 32) (load (privkey0.add 32) 32)).1 <;>
    simp [h, flag, setRegion_new, load_ofList_two, retArray_two, toUChar]

theorem privkey_tweak_mul_exec (L : Secp256k1) (privkey0 : Mem) (ctx : Int) :
    (Java_org_bitcoin_NativeSecp256k1_secp256k1_1privkey_1tweak_1mul L privkey0 ctx).exec =
      (let r := L.ec_privkey_tweak_mul ctx (load privkey0 32) (load (privkey0.add 32) 32)
       ([load (store privkey0 r.2) 32, [32, if r.1 = true then 1 else 0]],
        [Call.ec_privkey_tweak_mul ctx (load privkey0 32) (load (privkey0.add 32) 32)])) := by
  simp only [Native.exec, Java_org_bitcoin_NativeSecp256k1_secp256k1_1privkey_1tweak_1mul, secp256k1_ec_privkey_tweak_mul, logCall]
  cases h : (L.ec_privkey_tweak_mul ctx (load privkey0 32) (load (privkey0.add 32) 32)).1 <;>
    simp [h, flag, setRegion_new, load_ofList_two, retArray_two, toUChar]

theorem pubkey_negate_exec (L : Secp256k1) (outputSer0 pkey : Mem) (ctx : Int) (publen : Nat) :
    (Java_org_bitcoin_NativeSecp256k1_secp256k1_1pubkey_1negate L outputSer0 pkey ctx publen).exec =
      (let p := L.ec_pubkey_parse ctx (load pkey publen) publen
       let n := L.ec_pubkey_negate ctx p.2
       let flags := if publen = 33 then L.EC_COMPRESSED else L.EC_UNCOMPRESSED
       let s := L.ec_pubkey_serialize ctx publen n.2 flags
       if p.1 = true then
         if n.1 = true then
           ([load (store outputSer0 s.2.2) s.2.1, [toUChar s.2.1, 1]],
            [Call.ec_pubkey_parse ctx (load pkey publen) publen, Call.ec_pubkey_negate ctx p.2,
             Call.ec_pubkey_serialize ctx publen n.2 flags])
         else
           ([load outputSer0 publen, [toUChar publen, 0]],
            [Call.ec_pubkey_parse ctx (load pkey publen) publen, Call.ec_pubkey_negate ctx p.2])
       else
         ([load outputSer0 publen, [toUChar publen, 0]],
          [Call.ec_pubkey_parse ctx (load pkey publen) publen])) := by
  simp only [Native.exec, Java_org_bitcoin_NativeSecp256k1_secp256k1_1pubkey_1negate,
    secp256k1_ec_pubkey_parse, secp256k1_ec_pubkey_negate, secp256k1_ec_pubkey_serialize, logCall]
  cases hp : (L.ec_pubkey_parse ctx (load pkey publen) publen).1 <;>
  cases hn : (L.ec_pubkey_negate ctx (L.ec_pubkey_parse ctx (load pkey publen) publen).2).1 <;>
    simp [hp, hn, flag, setRegion_new, load_ofList_two, retArray_two, toUChar_zero, toUChar_one]

theorem pubkey_tweak_add_exec (L : Secp256k1) (outputSer0 pkey : Mem) (ctx : Int)
    (publen : Nat) :
    (Java_org_bitcoin_NativeSecp256k1_secp256k1_1pubkey_1tweak_1add L outputSer0 pkey ctx publen).exec =
      (let p := L.ec_pubkey_parse ctx (load pkey publen) publen
       let n := L.ec_pubkey_tweak_add ctx p.2 (load (pkey.add publen) 32)
       let s := L.ec_pubkey_serialize ctx 65 n.2 L.EC_UNCOMPRESSED
       if p.1 = true then
         if n.1 = true then
           ([load (store outputSer0 s.2.2) s.2.1, [toUChar s.2.1, 1]],
            [Call.ec_pubkey_parse ctx (load pkey publen) publen,
             Call.ec_pubkey_tweak_add ctx p.2 (load (pkey.add publen) 32),
             Call.ec_pubkey_serialize ctx 65 n.2 L.EC_UNCOMPRESSED])
         else
           ([load outputSer0 65, [65, 0]],
            [Call.ec_pubkey_parse ctx (load pkey publen) publen,
             Call.ec_pubkey_tweak_add ctx p.2 (load (pkey.add publen) 32)])
       else
         ([load outputSer0 65, [65, 0]],
          [Call.ec_pubkey_parse ctx (load pkey publen) publen])) := by
  simp only [Native.exec, Java_org_bitcoin_NativeSecp256k1_secp256k1_1pubkey_1tweak_1add,
    secp256k1_ec_pubkey_parse, secp256k1_ec_pubkey_tweak_add, secp256k1_ec_pubkey_serialize,
    logCall]
  cases hp : (L.ec_pubkey_parse ctx (load pkey publen) publen).1 <;>
  cases hn : (L.ec_pubkey_tweak_add ctx (L.ec_pubkey_parse ctx (load pkey publen) publen).2
      (load (pkey.add publen) 32)).1 <;>
    simp [hp, hn, flag, setRegion_new, load_ofList_two, retArray_two, toUChar]

theorem pubkey_tweak_mul_exec (L : Secp256k1) (outputSer0 pkey : Mem) (ctx : Int)
    (publen : Nat) :
    (Java_org_bitcoin_NativeSecp256k1_secp256k1_1pubkey_1tweak_1mul L outputSer0 pkey ctx publen).exec =
      (let p := L.ec_pubkey_parse ctx (load pkey publen) publen
       let n := L.ec_pubkey_tweak_mul ctx p.2 (load (pkey.add publen) 32)
       let s := L.ec_pubkey_serialize ctx 65 n.2 L.EC_UNCOMPRESSED
       if p.1 = true then
         if n.1 = true then
           ([load (store outputSer0 s.2.2) s.2.1, [toUChar s.2.1, 1]],
            [Call.ec_pubkey_parse ctx (load pkey publen) publen,
             Call.ec_pubkey_tweak_mul ctx p.2 (load (pkey.add publen) 32),
             Call.ec_pubkey_serialize ctx 65 n.2 L.EC_UNCOMPRESSED])
         else
           ([load outputSer0 65, [65, 0]],
            [Call.ec_pubkey_parse ctx (load pkey publen) publen,
             Call.ec_pubkey_tweak_mul ctx p.2 (load (pkey.add publen) 32)])
       else
         ([load outputSer0 65, [65, 0]],
          [Call.ec_pubkey_parse ctx (load pkey publen) publen])) := by
  simp only [Native.exec, Java_org_bitcoin_NativeSecp256k1_secp256k1_1pubkey_1tweak_1mul,
    secp256k1_ec_pubkey_parse, secp256k1_ec_pubkey_tweak_mul, secp256k1_ec_pubkey_serialize,
    logCall]
  cases hp : (L.ec_pubkey_parse ctx (load pkey publen) publen).1 <;>
  cases hn : (L.ec_pubkey_tweak_mul ctx (L.ec_pubkey_parse ctx (load pkey publen) publen).2
      (load (pkey.add publen) 32)).1 <;>
    simp [hp, hn, flag, setRegion_new, load_ofList_two, retArray_two, toUChar]

theorem ec_pubkey_add_exec (L : Secp256k1) (outputSer0 pubdata1 : Mem) (ctx : Int)
    (publen1 publen2 : Nat) :
    (Java_org_bitcoin_NativeSecp256k1_secp256k1_1ec_1pubkey_1add L outputSer0 pubdata1 ctx publen1 publen2).exec =
      (let p1 := L.ec_pubkey_parse ctx (load pubdata1 publen1) publen1
       let p2 := L.ec_pubkey_parse ctx (load (pubdata1.add publen1) publen2) publen2
       let c := L.ec_pubkey_combine ctx [p1.2, p2.2]
       let s := L.ec_pubkey_serialize ctx 65 c.2 L.EC_UNCOMPRESSED
       let parse1 : Call L := Call.ec_pubkey_parse ctx (load pubdata1 publen1) publen1
       let parse2 : Call L :=
         Call.ec_pubkey_parse ctx (load (pubdata1.add publen1) publen2) publen2
       if p1.1 = true then
         if p2.1 = true then
           if c.1 = true then
             ([load (store outputSer0 s.2.2) s.2.1, [toUChar s.2.1, if s.1 = true then 1 else 0]],
              [parse1, parse2, Call.ec_pubkey_combine ctx [p1.2, p2.2],
               Call.ec_pubkey_serialize ctx 65 c.2 L.EC_UNCOMPRESSED])
           else
             ([load outputSer0 65, [65, 0]],
              [parse1, parse2, Call.ec_pubkey_combine ctx [p1.2, p2.2]])
         else ([load outputSer0 65, [65, 0]], [parse1, parse2])
       else ([load outputSer0 65, [65, 0]], [parse1])) := by
  simp only [Native.exec, Java_org_bitcoin_NativeSecp256k1_secp256k1_1ec_1pubkey_1add,
    secp256k1_ec_pubkey_parse, secp256k1_ec_pubkey_combine, secp256k1_ec_pubkey_serialize,
    logCall]
  cases hp1 : (L.ec_pubkey_parse ctx (load pubdata1 publen1) publen1).1 <;>
  cases hp2 : (L.ec_pubkey_parse ctx (load (pubdata1.add publen1) publen2) publen2).1 <;>
  cases hc : (L.ec_pubkey_combine ctx [(L.ec_pubkey_parse ctx (load pubdata1 publen1) publen1).2,
      (L.ec_pubkey_parse ctx (load (pubdata1.add publen1) publen2) publen2).2]).1 <;>
  cases hs : (L.ec_pubkey_serialize ctx 65 (L.ec_pubkey_combine ctx
      [(L.ec_pubkey_parse ctx (load pubdata1 publen1) publen1).2,
       (L.ec_pubkey_parse ctx (load (pubdata1.add publen1) publen2) publen2).2]).2
      L.EC_UNCOMPRESSED).1 <;>
    simp [hp1, hp2, hc, hs, flag, setRegion_new, load_ofList_two, retArray_two, toUChar]

theorem ecdh_exec (L : Secp256k1) (nonce_res0 secdata : Mem) (ctx : Int) (publen : Nat) :
    (Java_org_bitcoin_NativeSecp256k1_secp256k1_1ecdh L nonce_res0 secdata ctx publen).exec =
      (let p := L.ec_pubkey_parse ctx (load (secdata.add 32) publen) publen
       let e := L.ecdh ctx p.2 (load secdata 32) none none
       if p.1 = true then
         ([load (store nonce_res0 e.2) 32, [if e.1 = true then 1 else 0]],
          [Call.ec_pubkey_parse ctx (load (secdata.add 32) publen) publen,
           Call.ecdh ctx p.2 (load secdata 32) none none])
       else
         ([load nonce_res0 32, [0]],
          [Call.ec_pubkey_parse ctx (load (secdata.add 32) publen) publen])) := by
  simp only [Native.exec, Java_org_bitcoin_NativeSecp256k1_secp256k1_1ecdh, secp256k1_ec_pubkey_parse, secp256k1_ecdh, logCall]
  cases hp : (L.ec_pubkey_parse ctx (load (secdata.add 32) publen) publen).1 <;>
  cases he : (L.ecdh ctx (L.ec_pubkey_parse ctx (load (secdata.add 32) publen) publen).2
      (load secdata 32) none none).1 <;>
    simp [hp, he, flag, setRegion_new, load_ofList_one, retArray_two, toUChar]

theorem ecdsa_recover_exec (L : Secp256k1) (outputSer0 sigdata : Mem) (ctx : Int)
    (recid : Int) :
    (Java_org_bitcoin_NativeSecp256k1_secp256k1_1ecdsa_1recover L outputSer0 sigdata ctx recid).exec =
      (let g := L.ecdsa_recoverable_signature_parse_compact ctx (load sigdata 64) recid
       let r := L.ecdsa_recover ctx g.2 (load (sigdata.add 64) 32)
       let s := L.ec_pubkey_serialize ctx 65 r.2 L.EC_UNCOMPRESSED
       let parse : Call L :=
         Call.ecdsa_recoverable_signature_parse_compact ctx (load sigdata 64) recid
       if g.1 = true then
         if r.1 = true then
           ([load (store outputSer0 s.2.2) s.2.1, [if s.1 = true then 1 else 0]],
            [parse, Call.ecdsa_recover ctx g.2 (load (sigdata.add 64) 32),
             Call.ec_pubkey_serialize ctx 65 r.2 L.EC_UNCOMPRESSED])
         else
           ([load outputSer0 65, [0]],
            [parse, Call.ecdsa_recover ctx g.2 (load (sigdata.add 64) 32)])
       else ([load outputSer0 65, [0]], [parse])) := by
  simp only [Native.exec, Java_org_bitcoin_NativeSecp256k1_secp256k1_1ecdsa_1recover,
    secp256k1_ecdsa_recoverable_signature_parse_compact, secp256k1_ecdsa_recover,
    secp256k1_ec_pubkey_serialize, logCall]
  cases hg : (L.ecdsa_recoverable_signature_parse_compact ctx (load sigdata 64) recid).1 <;>
  cases hr : (L.ecdsa_recover ctx
      (L.ecdsa_recoverable_signature_parse_compact ctx (load sigdata 64) recid).2
      (load (sigdata.add 64) 32)).1 <;>
  cases hs : (L.ec_pubkey_serialize ctx 65 (L.ecdsa_recover ctx
      (L.ecdsa_recoverable_signature_parse_compact ctx (load sigdata 64) recid).2
      (load (sigdata.add 64) 32)).2 L.EC_UNCOMPRESSED).1 <;>
    simp [hg, hr, hs, flag, setRegion_new, load_ofList_one, retArray_two, toUChar]

/-! ## Memory lemmas -/

theorem load_ofList (l : List Byte) : load (Mem.ofList l) l.length = l := by
  apply List.ext_getElem
  · simp [load]
  · intro i h1 h2
    simp [load, Mem.ofList, List.getD_eq_getElem?_getD, List.getElem?_eq_getElem h2]

theorem load_ofList_append (l r : List Byte) : load (Mem.ofList (l ++ r)) l.length = l := by
  apply List.ext_getElem
  · simp [load]
  · intro i h1 h2
    simp [load, Mem.ofList, List.getD_eq_getElem?_getD, List.getElem?_append_left h2,
      List.getElem?_eq_getElem h2]

theorem add_ofList_append (l r : List Byte) :
    (Mem.ofList (l ++ r)).add l.length = Mem.ofList r := by
  funext i
  simp [Mem.add, Mem.ofList, List.getD_eq_getElem?_getD, List.getElem?_append_right]

theorem load_store (m : Mem) (bs : List Byte) : load (store m bs) bs.length = bs := by
  apply List.ext_getElem
  · simp [load]
  · intro i h1 h2
    simp [load, store, h2, List.getD_eq_getElem?_getD, List.getElem?_eq_getElem h2]

theorem toUChar_natCast (n : Nat) : toUChar (n : Int) = n % 256 := by
  show ((n : Int) % 256).toNat = n % 256
  omega

theorem toUChar_of_lt (n : Nat) (h : n < 256) : toUChar (n : Int) = n := by
  rw [toUChar_natCast]; exact Nat.mod_eq_of_lt h

theorem load_ofList_len (l : List Byte) (n : Nat) (h : l.length = n) :
    load (Mem.ofList l) n = l := by
  subst h; exact load_ofList l

theorem load_ofList_append_len (l r : List Byte) (n : Nat) (h : l.length = n) :
    load (Mem.ofList (l ++ r)) n = l := by
  subst h; exact load_ofList_append l r

theorem add_ofList_append_len (l r : List Byte) (n : Nat) (h : l.length = n) :
    (Mem.ofList (l ++ r)).add n = Mem.ofList r := by
  subst h; exact add_ofList_append l r

theorem load_store_len (m : Mem) (bs : List Byte) (n : Nat) (h : bs.length = n) :
    load (store m bs) n = bs := by
  subst h; exact load_store m bs

namespace Sample

theorem fromBE_append_singleton (l : List Byte) (b : Byte) :
    fromBE (l ++ [b]) = fromBE l * 256 + b := by
  simp [fromBE, List.foldl_append]

theorem toBE_length (len n : Nat) : (toBE len n).length = len := by
  induction len generalizing n with
  | zero => simp [toBE]
  | succ len ih => simp [toBE, ih]

theorem fromBE_toBE (len n : Nat) : fromBE (toBE len n) = n % 256 ^ len := by
  induction len generalizing n with
  | zero => simp [toBE, fromBE, Nat.mod_one]
  | succ len ih =>
    rw [toBE, fromBE_append_singleton, ih, pow_succ, Nat.mul_comm (256 ^ len) 256, Nat.mod_mul]
    rw [Nat.add_comm, Nat.mul_comm]

theorem fromBE_toBE_32 (x : U256) : fromBE (toBE 32 x.val) = x.val := by
  rw [fromBE_toBE]
  exact Nat.mod_eq_of_lt (by have := x.isLt; norm_num at this ⊢; exact this)

theorem u256_val (x : U256) : u256 x.val = x := by
  apply Fin.ext
  simp [u256, Nat.mod_eq_of_lt x.isLt]

theorem toBE_fromBE (l : List Byte) (h : ∀ b ∈ l, b < 256) : toBE l.length (fromBE l) = l := by
  induction l using List.reverseRecOn with
  | nil => simp [toBE]
  | append_singleton l b ih =>
    have hb : b < 256 := h b (by simp)
    have hl : ∀ c ∈ l, c < 256 := fun c hc => h c (by simp [hc])
    rw [List.length_append, List.length_singleton, toBE, fromBE_append_singleton]
    have e1 : (fromBE l * 256 + b) / 256 = fromBE l := by
      rw [Nat.add_comm, Nat.add_mul_div_right _ _ (by norm_num), Nat.div_eq_of_lt hb, Nat.zero_add]
    have e2 : (fromBE l * 256 + b) % 256 = b := by
      rw [Nat.add_comm, Nat.add_mul_mod_self_right, Nat.mod_eq_of_lt hb]
    rw [e1, e2, ih hl]

theorem fromBE_cons_zero (l : List Byte) : fromBE (0 :: l) = fromBE l := by
  simp [fromBE]

theorem fromBE_derInt (l : List Byte) : fromBE (derInt l) = fromBE l := by
  induction l with
  | nil => simp [derInt]
  | cons b tl ih =>
    cases tl with
    | nil => simp [derInt]
    | cons c tl2 =>
      rw [derInt]
      split
      · rename_i hcond
        rw [ih, hcond.1, fromBE_cons_zero]
      · rfl

theorem derInt_length_le (l : List Byte) : (derInt l).length ≤ l.length := by
  induction l with
  | nil => simp [derInt]
  | cons b tl ih =>
    cases tl with
    | nil => simp [derInt]
    | cons c tl2 =>
      rw [derInt]
      split
      · exact Nat.le_succ_of_le ih
      · exact Nat.le_refl _


theorem derInt_val (x : U256) : fromBE (derInt (0 :: toBE 32 x.val)) = x.val := by
  rw [fromBE_derInt, fromBE_cons_zero, fromBE_toBE_32]

theorem derInt_len (x : U256) : (derInt (0 :: toBE 32 x.val)).length ≤ 33 := by
  have := derInt_length_le (0 :: toBE 32 x.val)
  simpa [toBE_length] using this

theorem derEncode_length (sig : U256 × U256) : (derEncode sig).length ≤ 72 := by
  have h1 := derInt_len sig.1
  have h2 := derInt_len sig.2
  simp only [derEncode, List.length_append, List.length_cons, List.length_nil]
  omega

theorem derDecode_derEncode (sig : U256 × U256) :
    derDecode (derEncode sig) (derEncode sig).length = (true, sig) := by
  have h1 := derInt_val sig.1
  have h2 := derInt_val sig.2
  have b1 := sig.1.isLt
  have b2 := sig.2.isLt
  generalize hR : derInt (0 :: toBE 32 sig.1.val) = R at h1
  generalize hS : derInt (0 :: toBE 32 sig.2.val) = S at h2
  have hd : List.drop R.length (R ++ 2 :: S.length :: S) = 2 :: S.length :: S :=
    List.drop_left' rfl
  have ht : List.take R.length (R ++ 2 :: S.length :: S) = R := List.take_left' rfl
  simp only [derEncode, hR, hS, List.cons_append, List.nil_append, List.append_assoc, derDecode,
    hd, ht, h1, h2]
  have c1 : 4 + R.length + S.length + 2 =
      (48 :: (4 + R.length + S.length) :: 2 :: R.length :: (R ++ 2 :: S.length :: S)).length := by
    simp only [List.length_cons, List.length_append]; omega
  have c2 : R.length ≤ (R ++ 2 :: S.length :: S).length := by simp
  rw [if_pos ⟨trivial, trivial, trivial, trivial, c1, trivial, c2, trivial, b1, b2⟩,
    u256_val, u256_val]

theorem lib_serialize_der (ctx : Int) (outputlen : Nat) (sig : U256 × U256) :
    lib.ecdsa_signature_serialize_der ctx outputlen sig =
      if (derEncode sig).length ≤ outputlen then (true, (derEncode sig).length, derEncode sig)
      else (false, (derEncode sig).length, []) := rfl

theorem lib_parse_der (ctx : Int) (input : List Byte) (inputlen : Nat) :
    lib.ecdsa_signature_parse_der ctx input inputlen = derDecode input inputlen := rfl

theorem lib_pubkey_serialize (ctx : Int) (outputlen : Nat) (P : U256 × Bool) (flags : Nat) :
    lib.ec_pubkey_serialize ctx outputlen P flags = pubkeySerialize outputlen P flags := rfl

theorem lib_pubkey_parse (ctx : Int) (input : List Byte) (inputlen : Nat) :
    lib.ec_pubkey_parse ctx input inputlen = pubkeyParse input inputlen := rfl

theorem lib_privkey_negate (ctx : Int) (k : List Byte) :
    lib.ec_privkey_negate ctx k = (true, toBE 32 ((N - fromBE k % N) % N)) := rfl

theorem lib_seckey_verify (ctx : Int) (k : List Byte) :
    lib.ec_seckey_verify ctx k = seckeyValid k := rfl

theorem lib_derContract (ctx : Int) : DerContract lib ctx := by
  intro sig
  refine ⟨derEncode sig, derEncode_length sig, ?_, ?_⟩
  · rw [lib_serialize_der, if_pos (derEncode_length sig)]
  · rw [lib_parse_der]; exact derDecode_derEncode sig

theorem lib_derLengthContract (ctx : Int) : DerLengthContract lib ctx := by
  intro sig
  rw [lib_serialize_der, if_pos (derEncode_length sig)]
  exact derEncode_length sig

theorem lib_pubkeyContract (ctx : Int) : PubkeyContract lib ctx := by
  intro P
  obtain ⟨x, odd⟩ := P
  have hx := fromBE_toBE_32 x
  have bx := x.isLt
  constructor
  · refine ⟨4 :: (toBE 32 x.val ++ toBE 32 (if odd then 1 else 0)), ?_, rfl, ?_, ?_⟩
    · simp [toBE_length]
    · rw [lib_pubkey_serialize]; simp [pubkeySerialize, lib]
    · have hy : fromBE (toBE 32 (if odd then 1 else 0)) = if odd then 1 else 0 := by
        rw [fromBE_toBE]; cases odd <;> simp
      have ht : List.take 32 (toBE 32 x.val ++ toBE 32 (if odd then 1 else 0)) = toBE 32 x.val :=
        List.take_left' (toBE_length _ _)
      have hd : List.drop 32 (toBE 32 x.val ++ toBE 32 (if odd then 1 else 0))
          = toBE 32 (if odd then 1 else 0) := List.drop_left' (toBE_length _ _)
      rw [lib_pubkey_parse]
      simp only [pubkeyParse, ht, hd, hx, hy]
      have hlen : (toBE 32 x.val ++ toBE 32 (if odd then 1 else 0)).length = 64 := by
        simp [toBE_length]
      have hle : (if odd = true then 1 else 0) ≤ 1 := by cases odd <;> simp
      rw [if_neg (by simp), if_pos ⟨trivial, hlen, trivial, bx, hle⟩, u256_val]
      cases odd <;> simp
  · refine ⟨(if odd then 3 else 2) :: toBE 32 x.val, ?_, ?_, ?_⟩
    · simp [toBE_length]
    · rw [lib_pubkey_serialize]; simp [pubkeySerialize, lib]
    · rw [lib_pubkey_parse]
      simp only [pubkeyParse, hx]
      have htag : (if odd = true then 3 else 2) = 2 ∨ (if odd = true then 3 else 2) = 3 := by
        cases odd <;> simp
      rw [if_pos ⟨trivial, toBE_length _ _, htag, bx⟩, u256_val]
      cases odd <;> simp

theorem lib_createContract (ctx : Int) : CreateContract lib ctx := by
  intro k _ hvalid
  exact hvalid

theorem lib_signVerifyContract (ctx : Int) : SignVerifyContract lib ctx := by
  intro h k _ _ hvalid
  refine ⟨hvalid, hvalid, ?_⟩
  show decide (u256 (fromBE h) = u256 (fromBE h) ∧
    ((u256 (fromBE k), false) : U256 × Bool) = (u256 (fromBE k), false)) = true
  simp

theorem lib_negateContract (ctx : Int) : NegateContract lib ctx := by
  constructor
  · intro k hk hvalid
    rw [lib_seckey_verify] at hvalid
    have hv : k.length = 32 ∧ (∀ b ∈ k, b < 256) ∧ 0 < fromBE k ∧ fromBE k < N := by
      simpa [seckeyValid] using hvalid
    obtain ⟨_, hbytes, hpos, hlt⟩ := hv
    refine ⟨rfl, toBE_length _ _, ?_⟩
    rw [lib_privkey_negate, lib_privkey_negate]
    have hN : N < 256 ^ 32 := by decide
    have e1 : fromBE k % N = fromBE k := Nat.mod_eq_of_lt hlt
    have e2 : (N - fromBE k) % N = N - fromBE k := Nat.mod_eq_of_lt (by omega)
    have e3 : (N - fromBE k) % 256 ^ 32 = N - fromBE k := Nat.mod_eq_of_lt (by omega)
    have e4 : N - (N - fromBE k) = fromBE k := by omega
    simp only [e1, e2, fromBE_toBE, e3, e4]
    rw [← hk, toBE_fromBE k hbytes]
  · intro P
    refine ⟨rfl, ?_⟩
    show ((true, (P.1, !(!P.2))) : Bool × (U256 × Bool)) = (true, P)
    simp

end Sample

/-! ## The claims -/

/-- C1. `ecdsa_verify` always returns 0 or 1. It returns 0, without calling the
library's verify, whenever the signature bytes at offset 32 or the public-key
bytes at offset 32+siglen fail to parse; it returns 1 exactly when the signature
parse, the public-key parse and `secp256k1_ecdsa_verify` on the 32 bytes at
offset 0 all return 1. -/
theorem ecdsa_verify_entry_fails_closed (L : Secp256k1) (data : Mem) (ctx : Int)
    (siglen publen : Nat) :
    let run := (Java_org_bitcoin_NativeSecp256k1_secp256k1_1ecdsa_1verify L data ctx siglen publen).exec
    let s := verifySigParse L data ctx siglen
    let p := verifyPubParse L data ctx siglen publen
    (run.1 = 0 ∨ run.1 = 1) ∧
    ((s.1 = false ∨ p.1 = false) → run.1 = 0 ∧ run.2.all (fun c => !c.isVerify) = true) ∧
    (run.1 = 1 ↔ s.1 = true ∧ p.1 = true ∧ L.ecdsa_verify ctx s.2 (load data 32) p.2 = true) := by
  intro run s p
  simp only [run, s, p, ecdsa_verify_exec, verifySigParse, verifyPubParse]
  by_cases h64 : siglen = 64
  · subst h64
    cases hs : (L.ecdsa_signature_parse_compact ctx (load (data.add 32) 64)).1 <;>
    cases hp : (L.ec_pubkey_parse ctx (load (data.add (64 + 32)) publen) publen).1 <;>
    cases hv : L.ecdsa_verify ctx (L.ecdsa_signature_parse_compact ctx (load (data.add 32) 64)).2
      (load data 32) (L.ec_pubkey_parse ctx (load (data.add (64 + 32)) publen) publen).2 <;>
    simp [hs, hp, hv, Call.isVerify, flag]
  · cases hs : (L.ecdsa_signature_parse_der ctx (load (data.add 32) siglen) siglen).1 <;>
    cases hp : (L.ec_pubkey_parse ctx (load (data.add (siglen + 32)) publen) publen).1 <;>
    cases hv : L.ecdsa_verify ctx
      (L.ecdsa_signature_parse_der ctx (load (data.add 32) siglen) siglen).2
      (load data 32) (L.ec_pubkey_parse ctx (load (data.add (siglen + 32)) publen) publen).2 <;>
    simp [h64, hs, hp, hv, Call.isVerify, flag]

/-- Round trip of `ecdsa_sign`, `ec_pubkey_create` and `ecdsa_verify` for signatures
that are not 64 bytes long; the case of a 64-byte signature is left open. For
a valid private key `k` and a 32-byte hash `h`, with a library
that meets the sign/verify, DER and public-key contracts: `ecdsa_sign` on
`h ‖ k` returns status 1 and a payload `sig` of the reported length `len`,
`ec_pubkey_create` on `k` returns status 1 and a 65-byte payload `pub`, and,
unless `len` is 64, `ecdsa_verify` on `h ‖ sig ‖ pub` with `siglen = len` and
`publen = 65` returns 1. -/
theorem sign_then_verify_entry_unless_64 (L : Secp256k1) (ctx : Int) (bufSig bufPub : Mem)
    (h k : List Byte) (hh : h.length = 32) (hk : k.length = 32)
    (hvalid : L.ec_seckey_verify ctx k = true)
    (hsv : SignVerifyContract L ctx) (hder : DerContract L ctx) (hpub : PubkeyContract L ctx) :
    ∃ (sig pub : List Byte) (len : Nat),
      (Java_org_bitcoin_NativeSecp256k1_secp256k1_1ecdsa_1sign
        L bufSig (Mem.ofList (h ++ k)) ctx).exec.1 = [sig, [len, 1]] ∧
      sig.length = len ∧
      (Java_org_bitcoin_NativeSecp256k1_secp256k1_1ec_1pubkey_1create
        L bufPub (Mem.ofList k) ctx).exec.1 = [pub, [65, 1]] ∧
      pub.length = 65 ∧
      (len ≠ 64 →
        (Java_org_bitcoin_NativeSecp256k1_secp256k1_1ecdsa_1verify
          L (Mem.ofList (h ++ sig ++ pub)) ctx len 65).exec.1 = 1) := by
  obtain ⟨hs, hc, hv⟩ := hsv h k hh hk hvalid
  obtain ⟨der, hderlen, hser, hparse⟩ := hder (L.ecdsa_sign ctx h k none none).2
  obtain ⟨⟨enc, henc, _, hpser, hpparse⟩, _⟩ := hpub (L.ec_pubkey_create ctx k).2
  have e1 : load (Mem.ofList (h ++ k)) 32 = h := load_ofList_append_len h k 32 hh
  have e2 : load ((Mem.ofList (h ++ k)).add 32) 32 = k := by
    rw [add_ofList_append_len h k 32 hh]; exact load_ofList_len k 32 hk
  have e3 : load (Mem.ofList k) 32 = k := load_ofList_len k 32 hk
  refine ⟨der, enc, der.length, ?_, rfl, ?_, henc, ?_⟩
  · rw [ecdsa_sign_exec]
    simp only [e1, e2, hs, hser, if_true]
    rw [load_store, toUChar_of_lt _ (by omega)]
  · rw [ec_pubkey_create_exec]
    simp only [e3, hc, hpser, if_true]
    rw [load_store_len _ _ _ henc]
    simp [toUChar]
  · intro h64
    have d1 : load (Mem.ofList (h ++ der ++ enc)) 32 = h := by
      rw [List.append_assoc]; exact load_ofList_append_len h _ 32 hh
    have d2 : load ((Mem.ofList (h ++ der ++ enc)).add 32) der.length = der := by
      rw [List.append_assoc, add_ofList_append_len h _ 32 hh]; exact load_ofList_append der enc
    have d3 : load ((Mem.ofList (h ++ der ++ enc)).add (der.length + 32)) 65 = enc := by
      rw [add_ofList_append_len (h ++ der) enc (der.length + 32) (by simp [hh]; omega)]
      exact load_ofList_len enc 65 henc
    rw [ecdsa_verify_exec]
    simp only [h64, if_false, d1, d2, d3, hparse, hpparse, if_true, hv]
    rfl

/-- In the instance `Sample.lib` the hypothesis `len ≠ 64` of
`sign_then_verify_entry_unless_64` cannot be dropped: the valid key `key64`
signs `hash64` with a DER signature of exactly 64 bytes, and `ecdsa_verify`
with `siglen = 64` and `publen = 65` takes the compact parser and returns 0.
Signing in the instance is not ECDSA (the signature is the pair of hash and
key), so this is a fact about libraries that meet the three contracts, not
about the signatures the secp256k1 library produces. -/
theorem sample_round_trip_returns_0_at_64 :
    SignVerifyContract Sample.lib 0 ∧ DerContract Sample.lib 0 ∧ PubkeyContract Sample.lib 0 ∧
    Sample.hash64.length = 32 ∧ Sample.key64.length = 32 ∧
    Sample.lib.ec_seckey_verify 0 Sample.key64 = true ∧
    (Java_org_bitcoin_NativeSecp256k1_secp256k1_1ecdsa_1sign
      Sample.lib Sample.zeroMem (Mem.ofList (Sample.hash64 ++ Sample.key64)) 0).exec.1
        = [Sample.der64, [64, 1]] ∧
    Sample.der64.length = 64 ∧
    (Java_org_bitcoin_NativeSecp256k1_secp256k1_1ec_1pubkey_1create
      Sample.lib Sample.zeroMem (Mem.ofList Sample.key64) 0).exec.1 = [Sample.pub64, [65, 1]] ∧
    (Java_org_bitcoin_NativeSecp256k1_secp256k1_1ecdsa_1verify
      Sample.lib (Mem.ofList (Sample.hash64 ++ Sample.der64 ++ Sample.pub64)) 0 64 65).exec.1 = 0 :=
  ⟨Sample.lib_signVerifyContract 0, Sample.lib_derContract 0, Sample.lib_pubkeyContract 0,
    by decide, by decide, by decide, by decide, by decide, by decide, by decide⟩

/-- The round trip at the instance, the hash `hashA` and the key `0x00...01`: the
signature payload has 40 bytes and `ecdsa_verify` returns 1. -/
theorem sign_then_verify_entry_unless_64_witness :
    Sample.lib.ec_seckey_verify 0 keyOne = true ∧
    ∃ (sig pub : List Byte),
      (Java_org_bitcoin_NativeSecp256k1_secp256k1_1ecdsa_1sign
        Sample.lib Sample.zeroMem (Mem.ofList (Sample.hashA ++ keyOne)) 0).exec.1
          = [sig, [40, 1]] ∧
      (Java_org_bitcoin_NativeSecp256k1_secp256k1_1ec_1pubkey_1create
        Sample.lib Sample.zeroMem (Mem.ofList keyOne) 0).exec.1 = [pub, [65, 1]] ∧
      (Java_org_bitcoin_NativeSecp256k1_secp256k1_1ecdsa_1verify
        Sample.lib (Mem.ofList (Sample.hashA ++ sig ++ pub)) 0 40 65).exec.1 = 1 := by
  obtain ⟨sig, pub, len, h1, _, h3, _, h5⟩ :=
    sign_then_verify_entry_unless_64 Sample.lib 0 Sample.zeroMem Sample.zeroMem Sample.hashA
      keyOne (by decide) (by decide) (by decide)
      (Sample.lib_signVerifyContract 0) (Sample.lib_derContract 0) (Sample.lib_pubkeyContract 0)
  have hlen : len = 40 := by
    have e : lengthOf2 (Java_org_bitcoin_NativeSecp256k1_secp256k1_1ecdsa_1sign
        Sample.lib Sample.zeroMem (Mem.ofList (Sample.hashA ++ keyOne)) 0).exec.1 = some 40 := by
      decide
    rw [h1] at e
    simpa [lengthOf2, intsOf] using e
  subst hlen
  exact ⟨by decide, sig, pub, h1, h3, h5 (by decide)⟩

/-- C4. Given that the DER serializer, offered room for 72 bytes, reports at most
72, the signature payload returned by `ecdsa_sign` has at most 72 bytes: it has
exactly 72 when signing fails (the serializer is not called), and otherwise the
length reported by the serializer, which is called once with capacity 72. -/
theorem ecdsa_sign_entry_payload_at_most_72 (L : Secp256k1) (outputSer0 data : Mem)
    (ctx : Int) (hder : DerLengthContract L ctx) :
    let run := (Java_org_bitcoin_NativeSecp256k1_secp256k1_1ecdsa_1sign L outputSer0 data ctx).exec
    let r := L.ecdsa_sign ctx (load data 32) (load (data.add 32) 32) none none
    ∃ payload, payloadOf run.1 = some payload ∧ payload.length ≤ 72 ∧
      (r.1 = false → payload.length = 72 ∧
        run.2 = [Call.ecdsa_sign ctx (load data 32) (load (data.add 32) 32) none none]) ∧
      (r.1 = true →
        payload.length = (L.ecdsa_signature_serialize_der ctx 72 r.2).2.1 ∧
        run.2 = [Call.ecdsa_sign ctx (load data 32) (load (data.add 32) 32) none none,
                 Call.ecdsa_signature_serialize_der ctx 72 r.2]) := by
  intro run r
  have hlen := hder (L.ecdsa_sign ctx (load data 32) (load (data.add 32) 32) none none).2
  simp only [run, r, ecdsa_sign_exec]
  cases h : (L.ecdsa_sign ctx (load data 32) (load (data.add 32) 32) none none).1 <;>
    simp [h, payloadOf, load_length, hlen]

/-- C4 (witness). The bound at the instance, signing `hashA` with the key `0x00...01`. -/
theorem ecdsa_sign_entry_payload_at_most_72_witness :
    DerLengthContract Sample.lib 0 ∧
    ∃ payload, payloadOf (Java_org_bitcoin_NativeSecp256k1_secp256k1_1ecdsa_1sign
        Sample.lib Sample.zeroMem (Mem.ofList (Sample.hashA ++ keyOne)) 0).exec.1 = some payload ∧
      payload.length ≤ 72 := by
  refine ⟨Sample.lib_derLengthContract 0, ?_⟩
  obtain ⟨payload, h1, h2, _⟩ := ecdsa_sign_entry_payload_at_most_72 Sample.lib Sample.zeroMem
    (Mem.ofList (Sample.hashA ++ keyOne)) 0 (Sample.lib_derLengthContract 0)
  exact ⟨payload, h1, h2⟩

/-- C5. For a valid private key in the buffer, given that the library creates a
public key from every valid private key and serializes public keys as the
contract says, `ec_pubkey_create` returns status 1, length 65, and as payload
the 65 bytes, starting with 0x04, of the uncompressed serialization of the
key computed by `secp256k1_ec_pubkey_create`. In particular, when the buffer
holds `0x00...01` and `G` is the key the library creates from it (the
generator), the payload is the uncompressed serialization of `G`. -/
theorem ec_pubkey_create_entry_uncompressed (L : Secp256k1) (outputSer0 secKey : Mem)
    (ctx : Int) (hvalid : L.ec_seckey_verify ctx (load secKey 32) = true)
    (hcreate : CreateContract L ctx) (hpub : PubkeyContract L ctx) :
    let run := (Java_org_bitcoin_NativeSecp256k1_secp256k1_1ec_1pubkey_1create
      L outputSer0 secKey ctx).exec
    let created := L.ec_pubkey_create ctx (load secKey 32)
    ∃ enc : List Byte, run.1 = [enc, [65, 1]] ∧ enc.length = 65 ∧ enc.head? = some 4 ∧
      created.1 = true ∧
      L.ec_pubkey_serialize ctx 65 created.2 L.EC_UNCOMPRESSED = (true, 65, enc) ∧
      run.2 = [Call.ec_pubkey_create ctx (load secKey 32),
               Call.ec_pubkey_serialize ctx 65 created.2 L.EC_UNCOMPRESSED] ∧
      (∀ G : L.PubKey, load secKey 32 = keyOne → L.ec_pubkey_create ctx keyOne = (true, G) →
        L.ec_pubkey_serialize ctx 65 G L.EC_UNCOMPRESSED = (true, 65, enc)) := by
  intro run created
  have hc := hcreate (load secKey 32) (load_length _ _) hvalid
  obtain ⟨⟨enc, henc, hhead, hser, _⟩, _⟩ := hpub (L.ec_pubkey_create ctx (load secKey 32)).2
  refine ⟨enc, ?_, henc, hhead, hc, hser, ?_, ?_⟩
  · simp only [run, ec_pubkey_create_exec]
    simp [hc, hser, load_store_len _ _ _ henc, toUChar]
  · simp only [run, ec_pubkey_create_exec]
    simp [hc, created]
  · intro G hkey hG
    rw [hkey, hG] at hser
    exact hser

/-- C5 (witness). At the instance and the key `0x00...01`: status 1 and the 65-byte
uncompressed encoding of the instance's generator. -/
theorem ec_pubkey_create_entry_uncompressed_witness :
    Sample.lib.ec_seckey_verify 0 (load (Mem.ofList keyOne) 32) = true ∧
    ∃ enc : List Byte,
      (Java_org_bitcoin_NativeSecp256k1_secp256k1_1ec_1pubkey_1create
        Sample.lib Sample.zeroMem (Mem.ofList keyOne) 0).exec.1 = [enc, [65, 1]] ∧
      enc.length = 65 ∧ enc.head? = some 4 := by
  refine ⟨by decide, ?_⟩
  obtain ⟨enc, h1, h2, h3, _⟩ := ec_pubkey_create_entry_uncompressed Sample.lib Sample.zeroMem
    (Mem.ofList keyOne) 0 (by decide) (Sample.lib_createContract 0) (Sample.lib_pubkeyContract 0)
  exact ⟨enc, h1, h2, h3⟩

/-- C6. `ec_pubkey_add` reports status 0 if the first key fails to parse, if the
second key fails to parse, or if combining the two parsed keys fails; it
reports status 1 exactly when both parses, the combine and the uncompressed
serialization of the sum succeed; and when the first parse fails the log holds
that parse alone (the second key is not parsed). -/
theorem ec_pubkey_add_entry_status (L : Secp256k1) (outputSer0 pubdata1 : Mem) (ctx : Int)
    (publen1 publen2 : Nat) :
    let run := (Java_org_bitcoin_NativeSecp256k1_secp256k1_1ec_1pubkey_1add
      L outputSer0 pubdata1 ctx publen1 publen2).exec
    let p1 := L.ec_pubkey_parse ctx (load pubdata1 publen1) publen1
    let p2 := L.ec_pubkey_parse ctx (load (pubdata1.add publen1) publen2) publen2
    let c := L.ec_pubkey_combine ctx [p1.2, p2.2]
    let s := L.ec_pubkey_serialize ctx 65 c.2 L.EC_UNCOMPRESSED
    ((p1.1 = false ∨ p2.1 = false ∨ c.1 = false) → statusOf2 run.1 = some 0) ∧
    (statusOf2 run.1 = some 1 ↔ p1.1 = true ∧ p2.1 = true ∧ c.1 = true ∧ s.1 = true) ∧
    (p1.1 = false → run.2 = [Call.ec_pubkey_parse ctx (load pubdata1 publen1) publen1]) := by
  intro run p1 p2 c s
  simp only [run, p1, p2, c, s, ec_pubkey_add_exec]
  cases hp1 : (L.ec_pubkey_parse ctx (load pubdata1 publen1) publen1).1 <;>
  cases hp2 : (L.ec_pubkey_parse ctx (load (pubdata1.add publen1) publen2) publen2).1 <;>
  cases hc : (L.ec_pubkey_combine ctx [(L.ec_pubkey_parse ctx (load pubdata1 publen1) publen1).2,
      (L.ec_pubkey_parse ctx (load (pubdata1.add publen1) publen2) publen2).2]).1 <;>
  cases hs : (L.ec_pubkey_serialize ctx 65 (L.ec_pubkey_combine ctx
      [(L.ec_pubkey_parse ctx (load pubdata1 publen1) publen1).2,
       (L.ec_pubkey_parse ctx (load (pubdata1.add publen1) publen2) publen2).2]).2
      L.EC_UNCOMPRESSED).1 <;>
    simp [hp1, hp2, hc, hs, statusOf2, intsOf]

/-- C7. `ecdh` reports status 0 with no call of `secp256k1_ecdh` when the
public-key bytes at offset 32 fail to parse; otherwise it calls
`secp256k1_ecdh` once, on the parsed key and the 32 bytes at offset 0 with
`NULL` hash function and `NULL` data, and reports exactly its result. The
payload always has exactly 32 bytes. -/
theorem ecdh_entry_status (L : Secp256k1) (nonce_res0 secdata : Mem) (ctx : Int)
    (publen : Nat) :
    let run := (Java_org_bitcoin_NativeSecp256k1_secp256k1_1ecdh
      L nonce_res0 secdata ctx publen).exec
    let p := L.ec_pubkey_parse ctx (load (secdata.add 32) publen) publen
    let e := L.ecdh ctx p.2 (load secdata 32) none none
    (p.1 = false → statusOf1 run.1 = some 0 ∧ run.2.all (fun c => !c.isEcdh) = true) ∧
    (p.1 = true → statusOf1 run.1 = some (if e.1 = true then 1 else 0) ∧
      run.2 = [Call.ec_pubkey_parse ctx (load (secdata.add 32) publen) publen,
               Call.ecdh ctx p.2 (load secdata 32) none none]) ∧
    (∃ payload, payloadOf run.1 = some payload ∧ payload.length = 32) := by
  intro run p e
  simp only [run, p, e, ecdh_exec]
  cases hp : (L.ec_pubkey_parse ctx (load (secdata.add 32) publen) publen).1 <;>
    simp [hp, statusOf1, intsOf, payloadOf, Call.isEcdh, load_length]

/-- C8. `ecdsa_recover` parses the 64 bytes at offset 0 with the given recid and,
if that succeeds, recovers with the 32 bytes at offset 64. It reports status 1
exactly when the parse, the recovery and the uncompressed serialization of the
recovered key all succeed; when the parse fails the status is 0 and the log
holds the parse alone (recovery is not attempted). -/
theorem ecdsa_recover_entry_status (L : Secp256k1) (outputSer0 sigdata : Mem) (ctx : Int)
    (recid : Int) :
    let run := (Java_org_bitcoin_NativeSecp256k1_secp256k1_1ecdsa_1recover
      L outputSer0 sigdata ctx recid).exec
    let g := L.ecdsa_recoverable_signature_parse_compact ctx (load sigdata 64) recid
    let r := L.ecdsa_recover ctx g.2 (load (sigdata.add 64) 32)
    let s := L.ec_pubkey_serialize ctx 65 r.2 L.EC_UNCOMPRESSED
    (statusOf1 run.1 = some 1 ↔ g.1 = true ∧ r.1 = true ∧ s.1 = true) ∧
    (statusOf1 run.1 = some 0 ∨ statusOf1 run.1 = some 1) ∧
    (g.1 = false → statusOf1 run.1 = some 0 ∧
      run.2 = [Call.ecdsa_recoverable_signature_parse_compact ctx (load sigdata 64) recid]) ∧
    (g.1 = true → run.2.take 2 =
      [Call.ecdsa_recoverable_signature_parse_compact ctx (load sigdata 64) recid,
       Call.ecdsa_recover ctx g.2 (load (sigdata.add 64) 32)]) := by
  intro run g r s
  simp only [run, g, r, s, ecdsa_recover_exec]
  cases hg : (L.ecdsa_recoverable_signature_parse_compact ctx (load sigdata 64) recid).1 <;>
  cases hr : (L.ecdsa_recover ctx
      (L.ecdsa_recoverable_signature_parse_compact ctx (load sigdata 64) recid).2
      (load (sigdata.add 64) 32)).1 <;>
  cases hs : (L.ec_pubkey_serialize ctx 65 (L.ecdsa_recover ctx
      (L.ecdsa_recoverable_signature_parse_compact ctx (load sigdata 64) recid).2
      (load (sigdata.add 64) 32)).2 L.EC_UNCOMPRESSED).1 <;>
    simp [hg, hr, hs, statusOf1, intsOf]

/-- C9. With a library that meets the negation and public-key contracts: for a valid
32-byte private key `k`, `privkey_negate` returns status 1 and a 32-byte payload
on which `privkey_negate` returns status 1 and payload `k`; for an encoding `Q`
of a public key, of length 33 or 65, `pubkey_negate` returns status 1 and a
payload that is an encoding of the same length and form, on which
`pubkey_negate` with the same `publen` returns status 1 and payload `Q`. -/
theorem negate_entries_are_involutions (L : Secp256k1) (ctx : Int) (buf1 buf2 : Mem)
    (k Q : List Byte) (hk : k.length = 32) (hvalid : L.ec_seckey_verify ctx k = true)
    (hQlen : Q.length = 33 ∨ Q.length = 65) (hQ : IsPubkeyEncoding L ctx Q)
    (hneg : NegateContract L ctx) (hpub : PubkeyContract L ctx) :
    (∃ k' : List Byte,
      (Java_org_bitcoin_NativeSecp256k1_secp256k1_1privkey_1negate
        L (Mem.ofList k) ctx).exec.1 = [k', [32, 1]] ∧
      k'.length = 32 ∧
      (Java_org_bitcoin_NativeSecp256k1_secp256k1_1privkey_1negate
        L (Mem.ofList k') ctx).exec.1 = [k, [32, 1]]) ∧
    (∃ Q' : List Byte,
      (Java_org_bitcoin_NativeSecp256k1_secp256k1_1pubkey_1negate
        L buf1 (Mem.ofList Q) ctx Q.length).exec.1 = [Q', [Q.length, 1]] ∧
      Q'.length = Q.length ∧ IsPubkeyEncoding L ctx Q' ∧
      (Java_org_bitcoin_NativeSecp256k1_secp256k1_1pubkey_1negate
        L buf2 (Mem.ofList Q') ctx Q.length).exec.1 = [Q, [Q.length, 1]]) := by
  obtain ⟨hpriv, hpubneg⟩ := hneg
  constructor
  · obtain ⟨h1, h2, h3⟩ := hpriv k hk hvalid
    have e1 : load (Mem.ofList k) 32 = k := load_ofList_len k 32 hk
    have e2 : load (Mem.ofList (L.ec_privkey_negate ctx k).2) 32 = (L.ec_privkey_negate ctx k).2 :=
      load_ofList_len _ 32 h2
    refine ⟨(L.ec_privkey_negate ctx k).2, ?_, h2, ?_⟩
    · rw [privkey_negate_exec]
      simp only [e1, h1, if_true]
      rw [load_store_len _ _ _ h2]
    · rw [privkey_negate_exec]
      simp only [e2, h3, if_true]
      rw [load_store_len _ _ _ hk]
  · obtain ⟨P, hparse, hser⟩ := hQ
    obtain ⟨hn1, hn2⟩ := hpubneg P
    have hlt : Q.length < 256 := by omega
    have eQ : load (Mem.ofList Q) Q.length = Q := load_ofList Q
    obtain ⟨⟨encU, hencU, _, hserU, hparseU⟩, ⟨encC, hencC, hserC, hparseC⟩⟩ :=
      hpub (L.ec_pubkey_negate ctx P).2
    rcases hQlen with h33 | h65
    · -- compressed
      have hser' : L.ec_pubkey_serialize ctx 33 P L.EC_COMPRESSED = (true, 33, Q) := by
        simpa [h33] using hser
      refine ⟨encC, ?_, by omega, ⟨(L.ec_pubkey_negate ctx P).2, ?_, ?_⟩, ?_⟩
      · rw [pubkey_negate_exec]
        simp only [eQ, hparse, hn1, if_true]
        simp only [h33, if_true, hserC]
        rw [load_store_len _ _ _ hencC]; simp [toUChar]
      · rw [hencC]; exact hparseC
      · rw [hencC]; simpa using hserC
      · rw [pubkey_negate_exec]
        have e : load (Mem.ofList encC) Q.length = encC := load_ofList_len _ _ (by omega)
        simp only [e]
        simp only [h33, hparseC, hn2, if_true, hser']
        rw [load_store_len _ _ _ h33]; simp [toUChar]
    · -- uncompressed
      have hne : ¬ (65 = 33) := by decide
      have hser' : L.ec_pubkey_serialize ctx 65 P L.EC_UNCOMPRESSED = (true, 65, Q) := by
        simpa [h65] using hser
      refine ⟨encU, ?_, by omega, ⟨(L.ec_pubkey_negate ctx P).2, ?_, ?_⟩, ?_⟩
      · rw [pubkey_negate_exec]
        simp only [eQ, hparse, hn1, if_true]
        simp only [h65, hne, if_false, hserU, if_true]
        rw [load_store_len _ _ _ hencU]; simp [toUChar]
      · rw [hencU]; exact hparseU
      · rw [hencU]; simpa using hserU
      · rw [pubkey_negate_exec]
        have e : load (Mem.ofList encU) Q.length = encU := load_ofList_len _ _ (by omega)
        simp only [e]
        simp only [h65, hparseU, hn2, if_true, hne, if_false, hser']
        rw [load_store_len _ _ _ h65]; simp [toUChar]

/-- C9 (witness). At the instance, the key `0x00...01` and the compressed encoding of
its public key. -/
theorem negate_entries_are_involutions_witness :
    Sample.lib.ec_seckey_verify 0 keyOne = true ∧
    IsPubkeyEncoding Sample.lib 0 Sample.pubOneCompressed ∧
    (∃ k' : List Byte,
      (Java_org_bitcoin_NativeSecp256k1_secp256k1_1privkey_1negate
        Sample.lib (Mem.ofList keyOne) 0).exec.1 = [k', [32, 1]] ∧
      (Java_org_bitcoin_NativeSecp256k1_secp256k1_1privkey_1negate
        Sample.lib (Mem.ofList k') 0).exec.1 = [keyOne, [32, 1]]) ∧
    (∃ Q' : List Byte,
      (Java_org_bitcoin_NativeSecp256k1_secp256k1_1pubkey_1negate
        Sample.lib Sample.zeroMem (Mem.ofList Sample.pubOneCompressed) 0 33).exec.1 = [Q', [33, 1]] ∧
      (Java_org_bitcoin_NativeSecp256k1_secp256k1_1pubkey_1negate
        Sample.lib Sample.zeroMem (Mem.ofList Q') 0 33).exec.1 = [Sample.pubOneCompressed, [33, 1]]) := by
  have hQ : IsPubkeyEncoding Sample.lib 0 Sample.pubOneCompressed :=
    ⟨((1 : Sample.U256), false),
      (by decide : Sample.pubkeyParse Sample.pubOneCompressed Sample.pubOneCompressed.length
        = (true, ((1 : Sample.U256), false))),
      (by decide : Sample.pubkeySerialize Sample.pubOneCompressed.length ((1 : Sample.U256), false)
        (if Sample.pubOneCompressed.length = 33 then 258 else 2)
        = (true, Sample.pubOneCompressed.length, Sample.pubOneCompressed))⟩
  obtain ⟨⟨k', a1, _, a2⟩, ⟨Q', b1, _, _, b2⟩⟩ :=
    negate_entries_are_involutions Sample.lib 0 Sample.zeroMem Sample.zeroMem keyOne
      Sample.pubOneCompressed (by decide) (by decide) (Or.inl (by decide)) hQ
      (Sample.lib_negateContract 0) (Sample.lib_pubkeyContract 0)
  exact ⟨by decide, hQ, ⟨k', a1, a2⟩, ⟨Q', b1, b2⟩⟩

/-- When the public key does not parse, `pubkey_negate` makes no further library call
and returns a payload of `publen` bytes read at `outputSer`, a buffer declared
with 65 bytes. -/
theorem pubkey_negate_payload_of_parse_failure (L : Secp256k1) (outputSer0 pkey : Mem)
    (ctx : Int) (publen : Nat)
    (hfail : (L.ec_pubkey_parse ctx (load pkey publen) publen).1 = false) :
    (Java_org_bitcoin_NativeSecp256k1_secp256k1_1pubkey_1negate
      L outputSer0 pkey ctx publen).exec =
      ([load outputSer0 publen, [toUChar publen, 0]],
       [Call.ec_pubkey_parse ctx (load pkey publen) publen]) := by
  rw [pubkey_negate_exec]
  simp [hfail]

/-- C10 (failing input). With `publen = 100` the public key does not parse and
`pubkey_negate` returns status 0 and a payload of 100 bytes, all copied from
the 65-byte buffer `outputSer`: 35 bytes more than the buffer holds. -/
theorem pubkey_negate_entry_copies_100_bytes :
    (Sample.lib.ec_pubkey_parse 0 (load Sample.zeroMem 100) 100).1 = false ∧
    ∃ payload : List Byte,
      (Java_org_bitcoin_NativeSecp256k1_secp256k1_1pubkey_1negate
        Sample.lib Sample.zeroMem Sample.zeroMem 0 100).exec.1 = [payload, [100, 0]] ∧
      payload = load Sample.zeroMem 100 ∧ payload.length = 100 ∧ 65 < payload.length :=
  ⟨by decide, load Sample.zeroMem 100, by decide, rfl, by decide, by decide⟩

/-- C11. `ecdsa_verify` makes exactly one signature parse, the first call of its
log, chosen by `siglen` alone: for `siglen = 64` it is
`secp256k1_ecdsa_signature_parse_compact` on the 64 bytes at offset 32 and no
DER parse is made; for every other `siglen` it is
`secp256k1_ecdsa_signature_parse_der` on the `siglen` bytes at offset 32 with
length `siglen`, and no compact parse is made. -/
theorem ecdsa_verify_entry_parser_choice (L : Secp256k1) (data : Mem) (ctx : Int)
    (siglen publen : Nat) :
    let run := (Java_org_bitcoin_NativeSecp256k1_secp256k1_1ecdsa_1verify
      L data ctx siglen publen).exec
    (siglen = 64 →
      run.2.head? = some (Call.ecdsa_signature_parse_compact ctx (load (data.add 32) 64)) ∧
      run.2.all (fun c => !c.isParseDer) = true) ∧
    (siglen ≠ 64 →
      run.2.head? =
        some (Call.ecdsa_signature_parse_der ctx (load (data.add 32) siglen) siglen) ∧
      run.2.all (fun c => !c.isParseCompact) = true) ∧
    (run.2.any (fun c => c.isParseCompact) = true ↔ siglen = 64) ∧
    (run.2.any (fun c => c.isParseDer) = true ↔ siglen ≠ 64) ∧
    (run.2.filter (fun c => c.isParseCompact || c.isParseDer)).length = 1 := by
  intro run
  simp only [run, ecdsa_verify_exec]
  by_cases h64 : siglen = 64
  · subst h64
    cases hs : (L.ecdsa_signature_parse_compact ctx (load (data.add 32) 64)).1 <;>
    cases hp : (L.ec_pubkey_parse ctx (load (data.add (64 + 32)) publen) publen).1 <;>
    simp [hs, hp, Call.isParseCompact, Call.isParseDer]
  · cases hs : (L.ecdsa_signature_parse_der ctx (load (data.add 32) siglen) siglen).1 <;>
    cases hp : (L.ec_pubkey_parse ctx (load (data.add (siglen + 32)) publen) publen).1 <;>
    simp [h64, hs, hp, Call.isParseCompact, Call.isParseDer]

/-- C12 (failing input). With `publen = 300` the public key does not parse and
`pubkey_negate` returns a payload of 300 bytes while the length byte is
`300 mod 256 = 44`. -/
theorem pubkey_negate_entry_length_byte_at_300 :
    (Sample.lib.ec_pubkey_parse 0 (load Sample.zeroMem 300) 300).1 = false ∧
    ∃ payload : List Byte,
      (Java_org_bitcoin_NativeSecp256k1_secp256k1_1pubkey_1negate
        Sample.lib Sample.zeroMem Sample.zeroMem 0 300).exec.1 = [payload, [44, 0]] ∧
      payload.length = 300 ∧
      lengthOf2 (Java_org_bitcoin_NativeSecp256k1_secp256k1_1pubkey_1negate
        Sample.lib Sample.zeroMem Sample.zeroMem 0 300).exec.1 = some 44 := by
  have hfail : (Sample.lib.ec_pubkey_parse 0 (load Sample.zeroMem 300) 300).1 = false := by
    decide
  have hbyte : toUChar ((300 : Nat) : Int) = 44 := by decide
  have hrun := pubkey_negate_payload_of_parse_failure Sample.lib Sample.zeroMem Sample.zeroMem
    0 300 hfail
  rw [hbyte] at hrun
  refine ⟨hfail, load Sample.zeroMem 300, ?_, load_length _ _, ?_⟩
  · rw [hrun]
  · rw [hrun]; rfl

theorem lengthByteMatches_of_lt (buf : Mem) (n : Nat) (status : Byte) (h : n < 256) :
    LengthByteMatches [load buf n, [toUChar (n : Int), status]] :=
  ⟨load buf n, status, by rw [toUChar_of_lt n h, load_length]⟩

theorem lengthByteMatches_const (buf : Mem) (n : Nat) (status : Byte) :
    LengthByteMatches [load buf n, [n, status]] :=
  ⟨load buf n, status, by rw [load_length]⟩

/-- Where the length byte does equal the payload length: with a library whose DER
serializer reports at most 72 and whose public-key serializer meets its
contract, at the ten length-reporting entry points other than `pubkey_negate`
for every input, and at `pubkey_negate` when `publen` is 33 or 65 or when
`publen` is below 256 and the key does not parse. -/
theorem length_byte_matches_payload_elsewhere (L : Secp256k1) (buf data : Mem) (ctx : Int)
    (len len2 : Nat) (hder : DerLengthContract L ctx) (hpub : PubkeyContract L ctx) :
    LengthByteMatches
      (Java_org_bitcoin_NativeSecp256k1_secp256k1_1ecdsa_1sign L buf data ctx).exec.1 ∧
    LengthByteMatches
      (Java_org_bitcoin_NativeSecp256k1_secp256k1_1ecdsa_1sign_1compact L buf data ctx).exec.1 ∧
    LengthByteMatches
      (Java_org_bitcoin_NativeSecp256k1_secp256k1_1ec_1pubkey_1create L buf data ctx).exec.1 ∧
    LengthByteMatches
      (Java_org_bitcoin_NativeSecp256k1_secp256k1_1ec_1pubkey_1parse L buf data ctx len).exec.1 ∧
    LengthByteMatches
      (Java_org_bitcoin_NativeSecp256k1_secp256k1_1privkey_1negate L data ctx).exec.1 ∧
    LengthByteMatches
      (Java_org_bitcoin_NativeSecp256k1_secp256k1_1privkey_1tweak_1add L data ctx).exec.1 ∧
    LengthByteMatches
      (Java_org_bitcoin_NativeSecp256k1_secp256k1_1privkey_1tweak_1mul L data ctx).exec.1 ∧
    LengthByteMatches
      (Java_org_bitcoin_NativeSecp256k1_secp256k1_1pubkey_1tweak_1add L buf data ctx len).exec.1 ∧
    LengthByteMatches
      (Java_org_bitcoin_NativeSecp256k1_secp256k1_1pubkey_1tweak_1mul L buf data ctx len).exec.1 ∧
    LengthByteMatches
      (Java_org_bitcoin_NativeSecp256k1_secp256k1_1ec_1pubkey_1add L buf data ctx len len2).exec.1 ∧
    ((len = 33 ∨ len = 65 ∨
        (len < 256 ∧ (L.ec_pubkey_parse ctx (load data len) len).1 = false)) →
      LengthByteMatches
        (Java_org_bitcoin_NativeSecp256k1_secp256k1_1pubkey_1negate L buf data ctx len).exec.1) := by
  have h65 : ∀ P : L.PubKey, (L.ec_pubkey_serialize ctx 65 P L.EC_UNCOMPRESSED).2.1 = 65 := by
    intro P
    obtain ⟨⟨enc, _, _, hser, _⟩, _⟩ := hpub P
    rw [hser]
  have h33 : ∀ P : L.PubKey, (L.ec_pubkey_serialize ctx 33 P L.EC_COMPRESSED).2.1 = 33 := by
    intro P
    obtain ⟨_, ⟨enc, _, hser, _⟩⟩ := hpub P
    rw [hser]
  refine ⟨?_, ?_, ?_, ?_, ?_, ?_, ?_, ?_, ?_, ?_, ?_⟩
  · rw [ecdsa_sign_exec]
    have hlen := hder (L.ecdsa_sign ctx (load data 32) (load (data.add 32) 32) none none).2
    cases h : (L.ecdsa_sign ctx (load data 32) (load (data.add 32) 32) none none).1
    · simpa [h] using lengthByteMatches_const buf 72 0
    · simpa [h] using lengthByteMatches_of_lt _ _ 1 (by omega)
  · rw [ecdsa_sign_compact_exec]
    cases h : (L.ecdsa_sign ctx (load data 32) (load (data.add 32) 32) none none).1
    · simpa [h] using lengthByteMatches_const buf 64 0
    · simpa [h] using lengthByteMatches_const _ 64 1
  · rw [ec_pubkey_create_exec]
    cases h : (L.ec_pubkey_create ctx (load data 32)).1
    · simpa [h] using lengthByteMatches_const buf 65 0
    · simpa [h, h65] using lengthByteMatches_const
        (store buf (L.ec_pubkey_serialize ctx 65 (L.ec_pubkey_create ctx (load data 32)).2
          L.EC_UNCOMPRESSED).2.2) 65 1
  · rw [ec_pubkey_parse_exec]
    cases h : (L.ec_pubkey_parse ctx (load data len) len).1
    · simpa [h] using lengthByteMatches_const buf 65 0
    · simpa [h, h65] using lengthByteMatches_const
        (store buf (L.ec_pubkey_serialize ctx 65 (L.ec_pubkey_parse ctx (load data len) len).2
          L.EC_UNCOMPRESSED).2.2) 65 1
  · rw [privkey_negate_exec]
    exact lengthByteMatches_const _ 32 _
  · rw [privkey_tweak_add_exec]
    exact lengthByteMatches_const _ 32 _
  · rw [privkey_tweak_mul_exec]
    exact lengthByteMatches_const _ 32 _
  · rw [pubkey_tweak_add_exec]
    cases hp : (L.ec_pubkey_parse ctx (load data len) len).1 <;>
    cases hn : (L.ec_pubkey_tweak_add ctx (L.ec_pubkey_parse ctx (load data len) len).2
      (load (data.add len) 32)).1
    · simpa [hp, hn] using lengthByteMatches_const buf 65 0
    · simpa [hp, hn] using lengthByteMatches_const buf 65 0
    · simpa [hp, hn] using lengthByteMatches_const buf 65 0
    · simpa [hp, hn, h65] using lengthByteMatches_const
        (store buf (L.ec_pubkey_serialize ctx 65 (L.ec_pubkey_tweak_add ctx
          (L.ec_pubkey_parse ctx (load data len) len).2 (load (data.add len) 32)).2
          L.EC_UNCOMPRESSED).2.2) 65 1
  · rw [pubkey_tweak_mul_exec]
    cases hp : (L.ec_pubkey_parse ctx (load data len) len).1 <;>
    cases hn : (L.ec_pubkey_tweak_mul ctx (L.ec_pubkey_parse ctx (load data len) len).2
      (load (data.add len) 32)).1
    · simpa [hp, hn] using lengthByteMatches_const buf 65 0
    · simpa [hp, hn] using lengthByteMatches_const buf 65 0
    · simpa [hp, hn] using lengthByteMatches_const buf 65 0
    · simpa [hp, hn, h65] using lengthByteMatches_const
        (store buf (L.ec_pubkey_serialize ctx 65 (L.ec_pubkey_tweak_mul ctx
          (L.ec_pubkey_parse ctx (load data len) len).2 (load (data.add len) 32)).2
          L.EC_UNCOMPRESSED).2.2) 65 1
  · rw [ec_pubkey_add_exec]
    cases hp1 : (L.ec_pubkey_parse ctx (load data len) len).1 <;>
    cases hp2 : (L.ec_pubkey_parse ctx (load (data.add len) len2) len2).1 <;>
    cases hc : (L.ec_pubkey_combine ctx [(L.ec_pubkey_parse ctx (load data len) len).2,
      (L.ec_pubkey_parse ctx (load (data.add len) len2) len2).2]).1 <;>
    first
      | (simpa [hp1, hp2, hc] using lengthByteMatches_const buf 65 0)
      | (simpa [hp1, hp2, hc, h65] using lengthByteMatches_const
          (store buf (L.ec_pubkey_serialize ctx 65 (L.ec_pubkey_combine ctx
            [(L.ec_pubkey_parse ctx (load data len) len).2,
             (L.ec_pubkey_parse ctx (load (data.add len) len2) len2).2]).2
            L.EC_UNCOMPRESSED).2.2) 65
          (if (L.ec_pubkey_serialize ctx 65 (L.ec_pubkey_combine ctx
            [(L.ec_pubkey_parse ctx (load data len) len).2,
             (L.ec_pubkey_parse ctx (load (data.add len) len2) len2).2]).2
            L.EC_UNCOMPRESSED).1 = true then 1 else 0))
  · intro hcase
    rw [pubkey_negate_exec]
    have hlt : len < 256 := by omega
    cases hp : (L.ec_pubkey_parse ctx (load data len) len).1 <;>
    cases hn : (L.ec_pubkey_negate ctx (L.ec_pubkey_parse ctx (load data len) len).2).1
    · simpa [hp, hn] using lengthByteMatches_of_lt buf len 0 hlt
    · simpa [hp, hn] using lengthByteMatches_of_lt buf len 0 hlt
    · simpa [hp, hn] using lengthByteMatches_of_lt buf len 0 hlt
    · have h3 : len = 33 ∨ len = 65 := by
        rcases hcase with h | h | ⟨_, h⟩
        · exact Or.inl h
        · exact Or.inr h
        · rw [hp] at h; exact absurd h (by decide)
      rcases h3 with h | h
      · subst h
        simpa [hp, hn, h33, toUChar] using lengthByteMatches_const
          (store buf (L.ec_pubkey_serialize ctx 33 (L.ec_pubkey_negate ctx
            (L.ec_pubkey_parse ctx (load data 33) 33).2).2 L.EC_COMPRESSED).2.2) 33 1
      · subst h
        simpa [hp, hn, h65, toUChar] using lengthByteMatches_const
          (store buf (L.ec_pubkey_serialize ctx 65 (L.ec_pubkey_negate ctx
            (L.ec_pubkey_parse ctx (load data 65) 65).2).2 L.EC_UNCOMPRESSED).2.2) 65 1

/-- The hypotheses of `length_byte_matches_payload_elsewhere` hold at the instance:
there `ecdsa_sign` on `hashA` and the key `0x00...01` returns a length byte equal
to the length of its payload. -/
theorem length_byte_matches_payload_at_sample :
    LengthByteMatches (Java_org_bitcoin_NativeSecp256k1_secp256k1_1ecdsa_1sign
      Sample.lib Sample.zeroMem (Mem.ofList (Sample.hashA ++ keyOne)) 0).exec.1 :=
  (length_byte_matches_payload_elsewhere Sample.lib Sample.zeroMem
    (Mem.ofList (Sample.hashA ++ keyOne)) 0 0 0
    (Sample.lib_derLengthContract 0) (Sample.lib_pubkeyContract 0)).1

end NativeSecp256k1
